import Mathlib

/-!
# awair-exporter: the collector and the configuration resolver

A shallow embedding of `main.go`.  Go `float64` values and `time.Time` values are
carried through the program without any arithmetic, so the embedding keeps them as
type parameters `V` and `T`.  A channel is the list of the values sent on it, in
sending order.  In the collector a host is a Go string, a sequence of bytes that
need not be valid UTF-8; the configuration resolver, which looks only at commas,
signs and digits, is given on texts.  A Collect pass that panics ends in
`Except.error` with what it had produced before the panic.  What the program gets
from outside (the config file, the environment, the devices) is an argument of
the function that reads it.  The calls into the Go standard library and the Prometheus client are
given by definitions that follow the documented behaviour of those libraries.
-/

namespace Awair

/-! ## The data model -/

/-- Config represents the structure of the YAML configuration file. -/
structure Config where
  Hosts : List String
  ListenPort : Int
  deriving DecidableEq, Repr

/-- AwairData represents the structure of the JSON response from the Awair Local API. -/
structure AwairData (V T : Type) where
  Timestamp : T
  Score : V
  DewPoint : V
  Temp : V
  Humid : V
  AbsHumid : V
  CO2 : V
  CO2Est : V
  CO2EstBaseline : V
  VOC : V
  VOCBaseline : V
  VOCH2Raw : V
  VOCEthanolRaw : V
  PM25 : V
  PM10Est : V

/-! ## Go strings -/

/-- A Go string: a sequence of bytes, not necessarily the UTF-8 encoding of a text. -/
abbrev GoString := List UInt8

/-- The byte `b` lies in the range from `lo` to `hi`. -/
def inRange (lo hi b : UInt8) : Bool :=
  lo ≤ b && b ≤ hi

/-- The function `utf8.ValidString`: the bytes are a sequence of well-formed UTF-8
encodings (no stray continuation byte, no overlong form, no surrogate, nothing
above U+10FFFF, no truncated encoding). -/
def ValidString : GoString → Bool
  | [] => true
  | b0 :: rest =>
    if b0 < 0x80 then ValidString rest
    else if inRange 0xC2 0xDF b0 then
      match rest with
      | b1 :: rest => inRange 0x80 0xBF b1 && ValidString rest
      | _ => false
    else if inRange 0xE0 0xEF b0 then
      match rest with
      | b1 :: b2 :: rest =>
        inRange (if b0 = 0xE0 then 0xA0 else 0x80) (if b0 = 0xED then 0x9F else 0xBF) b1 &&
          inRange 0x80 0xBF b2 && ValidString rest
      | _ => false
    else if inRange 0xF0 0xF4 b0 then
      match rest with
      | b1 :: b2 :: b3 :: rest =>
        inRange (if b0 = 0xF0 then 0x90 else 0x80) (if b0 = 0xF4 then 0x8F else 0xBF) b1 &&
          inRange 0x80 0xBF b2 && inRange 0x80 0xBF b3 && ValidString rest
      | _ => false
    else false

/-- The UTF-8 encoding of one character. -/
def encodeRune (c : Char) : GoString :=
  let n := c.toNat
  if n < 0x80 then [UInt8.ofNat n]
  else if n < 0x800 then [UInt8.ofNat (0xC0 + n / 64), UInt8.ofNat (0x80 + n % 64)]
  else if n < 0x10000 then
    [UInt8.ofNat (0xE0 + n / 4096), UInt8.ofNat (0x80 + n / 64 % 64), UInt8.ofNat (0x80 + n % 64)]
  else
    [UInt8.ofNat (0xF0 + n / 262144), UInt8.ofNat (0x80 + n / 4096 % 64),
      UInt8.ofNat (0x80 + n / 64 % 64), UInt8.ofNat (0x80 + n % 64)]

/-- The Go string of a text: its UTF-8 bytes. -/
def utf8 (s : String) : GoString :=
  s.data.flatMap encodeRune

/-! ## The part of the Prometheus client library that the collector calls -/

/-- The value type of a constant metric (`prometheus.ValueType`). -/
inductive ValueType where
  | CounterValue
  | GaugeValue
  | UntypedValue
  deriving DecidableEq, Repr

/-- The legacy metric-name rule of the client library: `[a-zA-Z_:][a-zA-Z0-9_:]*`. -/
def IsValidMetricName (n : String) : Bool :=
  match n.data with
  | [] => false
  | c :: cs =>
    (c.isAlpha || c == '_' || c == ':') &&
      cs.all fun d => d.isAlphanum || d == '_' || d == ':'

/-- The label-name rule of the client library: `[a-zA-Z_][a-zA-Z0-9_]*`, and the
name does not start with two underscores (those are reserved). -/
def checkLabelName (l : String) : Bool :=
  match l.data with
  | [] => false
  | c :: cs =>
    (c.isAlpha || c == '_') && (cs.all fun d => d.isAlphanum || d == '_') &&
      !(c == '_' && cs.head? == some '_')

/-- A metric descriptor (`prometheus.Desc`): the name, the help text, the names of
the variable labels, the constant label pairs, and the error that `NewDesc`
recorded while building it (if any).  Label names are texts, label values are Go
strings. -/
structure Desc where
  fqName : String
  help : String
  variableLabels : List String
  constLabelPairs : List (String × GoString)
  err : Option String
  deriving DecidableEq, Repr

/-- The constructor `prometheus.NewDesc`: it never fails, it records an error in the
descriptor when the metric name or a label name is invalid, a constant label
value is not valid UTF-8, or a label name is repeated. -/
def NewDesc (fqName help : String) (variableLabels : List String)
    (constLabels : List (String × GoString)) : Desc :=
  let names := constLabels.map Prod.fst ++ variableLabels
  { fqName := fqName
    help := help
    variableLabels := variableLabels
    constLabelPairs := constLabels
    err :=
      if !IsValidMetricName fqName then some "invalid metric name"
      else if !(names.all checkLabelName) then some "invalid label name"
      else if !(constLabels.all fun p => ValidString p.2) then some "invalid label value"
      else if !(decide names.Nodup) then some "duplicate label names"
      else none }

/-- A constant metric (`prometheus.constMetric`): descriptor, value type, value and
the label pairs (name, value). -/
structure Metric (V : Type) where
  desc : Desc
  valType : ValueType
  val : V
  labelPairs : List (String × GoString)

/-- The label pairs of a metric (`prometheus.MakeLabelPairs`): each variable label
name with its value, then the constant pairs, sorted by label name. -/
def MakeLabelPairs (desc : Desc) (labelValues : List GoString) :
    List (String × GoString) :=
  (List.zip desc.variableLabels labelValues ++ desc.constLabelPairs).insertionSort
    fun a b => a.1 ≤ b.1

/-- The constructor `prometheus.MustNewConstMetric`: it panics (`none`) when the
descriptor carries an error, when the number of label values differs from the
number of variable labels of the descriptor, or when a label value is not valid
UTF-8. -/
def MustNewConstMetric {V : Type} (desc : Desc) (valueType : ValueType) (value : V)
    (labelValues : List GoString) : Option (Metric V) :=
  if desc.err.isSome then none
  else if labelValues.length ≠ desc.variableLabels.length then none
  else if !(labelValues.all ValidString) then none
  else some
    { desc := desc
      valType := valueType
      val := value
      labelPairs := MakeLabelPairs desc labelValues }

/-! ## The collector -/

/-- AwairCollector implements the prometheus.Collector interface.  The HTTP client
of the source is a fixed client with a 10 second timeout; its behaviour is an
argument of `fetchData`. -/
structure AwairCollector where
  hosts : List GoString
  score : Desc
  dewPoint : Desc
  temperature : Desc
  humidity : Desc
  absHumidity : Desc
  co2 : Desc
  co2Est : Desc
  co2EstBaseline : Desc
  voc : Desc
  vocBaseline : Desc
  vocH2Raw : Desc
  vocEthanolRaw : Desc
  pm25 : Desc
  pm10Est : Desc

/-- NewAwairCollector creates a new AwairCollector. -/
def NewAwairCollector (hosts : List GoString) : AwairCollector :=
  { hosts := hosts
    score := NewDesc "awair_score"
      "Awair score (0-100)"
      ["device"] []
    dewPoint := NewDesc "awair_dew_point_celsius"
      "Dew point in Celsius"
      ["device"] []
    temperature := NewDesc "awair_temperature_celsius"
      "Temperature in Celsius"
      ["device"] []
    humidity := NewDesc "awair_humidity_percent"
      "Relative humidity percentage (0-100)"
      ["device"] []
    absHumidity := NewDesc "awair_absolute_humidity_g_m3"
      "Absolute humidity in grams per cubic meter"
      ["device"] []
    co2 := NewDesc "awair_co2_ppm"
      "Carbon Dioxide in parts per million"
      ["device"] []
    co2Est := NewDesc "awair_co2_estimated_ppm"
      "Estimated Carbon Dioxide in parts per million"
      ["device"] []
    co2EstBaseline := NewDesc "awair_co2_estimated_baseline"
      "CO2 sensor baseline value for estimation algorithm"
      ["device"] []
    voc := NewDesc "awair_voc_ppb"
      "Volatile Organic Compounds in parts per billion"
      ["device"] []
    vocBaseline := NewDesc "awair_voc_baseline"
      "VOC sensor baseline value for estimation algorithm"
      ["device"] []
    vocH2Raw := NewDesc "awair_voc_h2_raw"
      "Raw H2 sensor value for VOC calculation"
      ["device"] []
    vocEthanolRaw := NewDesc "awair_voc_ethanol_raw"
      "Raw ethanol sensor value for VOC calculation"
      ["device"] []
    pm25 := NewDesc "awair_pm25_ug_m3"
      "Particulate Matter (2.5 microns) in micrograms per cubic meter"
      ["device"] []
    pm10Est := NewDesc "awair_pm10_estimated_ug_m3"
      "Estimated Particulate Matter (10 microns) in micrograms per cubic meter"
      ["device"] [] }

/-- Describe implements prometheus.Collector: the descriptors sent on the channel,
in sending order. -/
def AwairCollector.Describe (collector : AwairCollector) : List Desc :=
  [ collector.score
  , collector.dewPoint
  , collector.temperature
  , collector.humidity
  , collector.absHumidity
  , collector.co2
  , collector.co2Est
  , collector.co2EstBaseline
  , collector.voc
  , collector.vocBaseline
  , collector.vocH2Raw
  , collector.vocEthanolRaw
  , collector.pm25
  , collector.pm10Est ]

/-- What one Collect pass has produced so far: the metrics sent on the channel and
the diagnostic log entries (host, error), both in order. -/
structure Scrape (V E : Type) where
  ch : List (Metric V)
  log : List (GoString × E)

/-- One statement `ch <- prometheus.MustNewConstMetric(desc, valueType, value, host)`
of Collect, on what was sent on the channel so far: the metric is built and sent.
When the constructor panics nothing more is sent (`Except.error`), also by the
statements after it. -/
def sendConstMetric {V : Type} (ch : Except (List (Metric V)) (List (Metric V))) (desc : Desc)
    (valueType : ValueType) (value : V) (host : GoString) :
    Except (List (Metric V)) (List (Metric V)) :=
  match ch with
  | Except.error sent => Except.error sent
  | Except.ok sent =>
    match MustNewConstMetric desc valueType value [host] with
    | none => Except.error sent
    | some m => Except.ok (sent ++ [m])

/-- One iteration of the loop of Collect: fetch the host; on an error log it and
continue with the next host, otherwise send the fourteen metrics.  The result is
`Except.error` when a send panicked. -/
def AwairCollector.collectHost {V T E : Type} (fetchData : GoString → Except E (AwairData V T))
    (collector : AwairCollector) (st : Scrape V E) (host : GoString) :
    Except (Scrape V E) (Scrape V E) :=
  match fetchData host with
  | Except.error err => Except.ok { st with log := st.log ++ [(host, err)] }
  | Except.ok data =>
    let ch := Except.ok st.ch
    let ch := sendConstMetric ch collector.score ValueType.GaugeValue data.Score host
    let ch := sendConstMetric ch collector.dewPoint ValueType.GaugeValue data.DewPoint host
    let ch := sendConstMetric ch collector.temperature ValueType.GaugeValue data.Temp host
    let ch := sendConstMetric ch collector.humidity ValueType.GaugeValue data.Humid host
    let ch := sendConstMetric ch collector.absHumidity ValueType.GaugeValue data.AbsHumid host
    let ch := sendConstMetric ch collector.co2 ValueType.GaugeValue data.CO2 host
    let ch := sendConstMetric ch collector.co2Est ValueType.GaugeValue data.CO2Est host
    let ch := sendConstMetric ch collector.co2EstBaseline ValueType.GaugeValue data.CO2EstBaseline host
    let ch := sendConstMetric ch collector.voc ValueType.GaugeValue data.VOC host
    let ch := sendConstMetric ch collector.vocBaseline ValueType.GaugeValue data.VOCBaseline host
    let ch := sendConstMetric ch collector.vocH2Raw ValueType.GaugeValue data.VOCH2Raw host
    let ch := sendConstMetric ch collector.vocEthanolRaw ValueType.GaugeValue data.VOCEthanolRaw host
    let ch := sendConstMetric ch collector.pm25 ValueType.GaugeValue data.PM25 host
    let ch := sendConstMetric ch collector.pm10Est ValueType.GaugeValue data.PM10Est host
    match ch with
    | Except.error sent => Except.error { st with ch := sent }
    | Except.ok sent => Except.ok { st with ch := sent }

/-- Collect implements prometheus.Collector: the loop over the configured hosts.
The per-host fetch is an argument, a function from the host to an error or a
reading.  The result is `Except.ok` with what the pass produced when it ran to
its end, and `Except.error` with what it had produced when a send panicked (the
hosts after that one are not visited). -/
def AwairCollector.Collect {V T E : Type} (fetchData : GoString → Except E (AwairData V T))
    (collector : AwairCollector) : Except (Scrape V E) (Scrape V E) :=
  collector.hosts.foldlM (collector.collectHost fetchData) { ch := [], log := [] }

/-! ## Closed forms of a pass, used in the proofs -/

/-- The metric a successful send builds for descriptor `d`, value `v` and host. -/
def gauge {V : Type} (d : Desc) (v : V) (host : GoString) : Metric V :=
  { desc := d, valType := ValueType.GaugeValue, val := v,
    labelPairs := [("device", host)] }

/-- The fourteen metrics of a host, in the order of the sends. -/
def hostMetrics {V T : Type} (c : AwairCollector) (host : GoString) (data : AwairData V T) :
    List (Metric V) :=
  [ gauge c.score data.Score host
  , gauge c.dewPoint data.DewPoint host
  , gauge c.temperature data.Temp host
  , gauge c.humidity data.Humid host
  , gauge c.absHumidity data.AbsHumid host
  , gauge c.co2 data.CO2 host
  , gauge c.co2Est data.CO2Est host
  , gauge c.co2EstBaseline data.CO2EstBaseline host
  , gauge c.voc data.VOC host
  , gauge c.vocBaseline data.VOCBaseline host
  , gauge c.vocH2Raw data.VOCH2Raw host
  , gauge c.vocEthanolRaw data.VOCEthanolRaw host
  , gauge c.pm25 data.PM25 host
  , gauge c.pm10Est data.PM10Est host ]

/-- The metrics one host contributes to a pass that does not panic at it. -/
def emitted {V T E : Type} (fetchData : GoString → Except E (AwairData V T))
    (c : AwairCollector) (host : GoString) : List (Metric V) :=
  match fetchData host with
  | Except.error _ => []
  | Except.ok data => hostMetrics c host data

/-- The log entries one host contributes to a pass. -/
def logged {V T E : Type} (fetchData : GoString → Except E (AwairData V T))
    (host : GoString) : List (GoString × E) :=
  match fetchData host with
  | Except.error err => [(host, err)]
  | Except.ok _ => []

/-- The pass panics at this host: its fetch succeeds and it is not valid UTF-8. -/
def panicsAt {V T E : Type} (fetchData : GoString → Except E (AwairData V T))
    (host : GoString) : Bool :=
  (fetchData host).isOk && !ValidString host

/-- The entries of the host list before the first one at which the pass panics (all
of them when there is none). -/
def beforePanic {V T E : Type} (fetchData : GoString → Except E (AwairData V T))
    (hosts : List GoString) : List GoString :=
  hosts.takeWhile fun h => !panicsAt fetchData h

/-- The fourteen metric names, in the order of Describe. -/
def metricNames : List String :=
  [ "awair_score", "awair_dew_point_celsius", "awair_temperature_celsius",
    "awair_humidity_percent", "awair_absolute_humidity_g_m3", "awair_co2_ppm",
    "awair_co2_estimated_ppm", "awair_co2_estimated_baseline", "awair_voc_ppb",
    "awair_voc_baseline", "awair_voc_h2_raw", "awair_voc_ethanol_raw", "awair_pm25_ug_m3",
    "awair_pm10_estimated_ug_m3" ]

/-- The (metric name, label pairs) key of an instance. -/
def seriesKey {V : Type} (m : Metric V) : String × List (String × GoString) :=
  (m.desc.fqName, m.labelPairs)

/-! ## Inputs of the closed examples -/

/-- A reading for the closed examples. -/
def sampleReading : AwairData Int String :=
  { Timestamp := "2024-01-01T00:00:00Z", Score := 85, DewPoint := 10, Temp := 21, Humid := 40,
    AbsHumid := 7, CO2 := 600, CO2Est := 610, CO2EstBaseline := 35000, VOC := 120,
    VOCBaseline := 37000, VOCH2Raw := 25, VOCEthanolRaw := 36, PM25 := 3, PM10Est := 4 }

/-- A fetch outcome for the closed examples: h1 is healthy, every other host is
unreachable. -/
def fetchOnlyH1 : GoString → Except String (AwairData Int String) :=
  fun host => if host = utf8 "h1" then Except.ok sampleReading else Except.error "unreachable"

/-- A fetch outcome for the closed examples: every host is healthy. -/
def fetchAll : GoString → Except String (AwairData Int String) :=
  fun _ => Except.ok sampleReading

/-- A host that is not valid UTF-8: the text h followed by the byte 0xff. -/
def badHost : GoString :=
  utf8 "h" ++ [0xff]

/-! ## The part of the Go standard library that loadConfig calls -/

/-- The process environment: the value of each variable that is set. -/
abbrev Environ := String → Option String

/-- The call `os.Getenv(key)`: the value of the variable, the empty string when the
variable is not set. -/
def Getenv (env : Environ) (key : String) : String :=
  match env key with
  | some value => value
  | none => ""

/-- The pieces of a character sequence between the occurrences of `sep`: at a
separator a new piece starts, any other character goes on the first piece of
the split of the rest. -/
def splitChars (sep : Char) : List Char → List (List Char)
  | [] => [[]]
  | c :: cs =>
    if c = sep then [] :: splitChars sep cs
    else
      match splitChars sep cs with
      | [] => [[c]]
      | piece :: pieces => (c :: piece) :: pieces

/-- The call `strings.Split(s, sep)` for a separator of one character: all the
substrings of `s` between the separators, empty ones included, untrimmed. -/
def Split (s : String) (sep : Char) : List String :=
  (splitChars sep s.data).map String.mk

/-- The two kinds of `strconv.NumError`. -/
inductive NumError where
  | ErrSyntax
  | ErrRange
  deriving DecidableEq, Repr

/-- The digit loop of `strconv.ParseUint(s, 10, 64)`: a character that is not a
decimal digit is a syntax error; a value that leaves the range of uint64 is a
range error. -/
def parseUintLoop : List Char → Nat → Except NumError Nat
  | [], n => Except.ok n
  | c :: cs, n =>
    if !c.isDigit then Except.error NumError.ErrSyntax
    else if n ≥ (2 ^ 64 - 1) / 10 + 1 then Except.error NumError.ErrRange
    else
      let n1 := n * 10 + (c.toNat - '0'.toNat)
      if n1 > 2 ^ 64 - 1 then Except.error NumError.ErrRange
      else parseUintLoop cs n1

/-- The call `strconv.ParseUint(s, 10, 64)` on the characters of `s`. -/
def ParseUint (s : List Char) : Except NumError Nat :=
  match s with
  | [] => Except.error NumError.ErrSyntax
  | _ => parseUintLoop s 0

/-- The rest of `strconv.ParseInt(s, 10, 64)` once the sign is taken off: the digits
are parsed as an unsigned number, which must fit a signed 64-bit integer. -/
def parseSigned (neg : Bool) (digits : List Char) : Except NumError Int :=
  match ParseUint digits with
  | Except.error err => Except.error err
  | Except.ok un =>
    if !neg && un ≥ 2 ^ 63 then Except.error NumError.ErrRange
    else if neg && un > 2 ^ 63 then Except.error NumError.ErrRange
    else Except.ok (if neg then -(un : Int) else (un : Int))

/-- The call `strconv.Atoi(s)` on a 64-bit platform, which is `ParseInt(s, 10, 0)`:
an optional sign, then decimal digits; the value must fit a signed 64-bit
integer. -/
def Atoi (s : String) : Except NumError Int :=
  match s.data with
  | [] => Except.error NumError.ErrSyntax
  | c :: cs =>
    if c = '+' then parseSigned false cs
    else if c = '-' then parseSigned true cs
    else parseSigned false (c :: cs)

/-! ## The configuration resolver -/

/-- What loadConfig finds at the config file path. -/
inductive ConfigFile where
  /-- The call os.Stat fails: there is no config file to load. -/
  | absent
  /-- The file exists and ioutil.ReadFile fails. -/
  | unreadable (err : String)
  /-- The file is read and yaml.Unmarshal fails. -/
  | malformed (err : String)
  /-- The file is read and yaml.Unmarshal succeeds; the document gives the keys
  hosts and listen_port or leaves them out. -/
  | parsed (hosts : Option (List String)) (listen_port : Option Int)
  deriving DecidableEq, Repr

/-- The errors loadConfig returns. -/
inductive LoadError where
  | read (err : String)
  | yaml (err : String)
  | atoi (err : NumError)
  deriving DecidableEq, Repr

/-- The three ways loadConfig ends: it returns a configuration, it returns an error,
or log.Fatal ends the process inside it. -/
inductive Loaded where
  | returned (cfg : Config)
  | failed (err : LoadError)
  | fatal (msg : String)
  deriving DecidableEq, Repr

/-- The message of the fatal check of loadConfig. -/
def noHostsMessage : String :=
  "Configuration error: No Awair hosts specified. Please set AWAIR_HOSTS or define hosts in /config/config.yml"

/-- The first block of loadConfig: the default configuration, overwritten by the keys
of the config file when there is one. -/
def loadFile (file : ConfigFile) : Except LoadError Config :=
  let cfg : Config := { Hosts := [], ListenPort := 9101 }
  match file with
  | ConfigFile.absent => Except.ok cfg
  | ConfigFile.unreadable err => Except.error (LoadError.read err)
  | ConfigFile.malformed err => Except.error (LoadError.yaml err)
  | ConfigFile.parsed hosts listen_port =>
    Except.ok
      { Hosts := match hosts with
          | some hs => hs
          | none => cfg.Hosts
        ListenPort := match listen_port with
          | some p => p
          | none => cfg.ListenPort }

/-- The function loadConfig loads configuration from file or environment variables. -/
def loadConfig (file : ConfigFile) (env : Environ) : Loaded :=
  match loadFile file with
  | Except.error err => Loaded.failed err
  | Except.ok cfg =>
    let awairHosts := Getenv env "AWAIR_HOSTS"
    let cfg := if awairHosts ≠ "" then { cfg with Hosts := Split awairHosts ',' } else cfg
    let listenPort := Getenv env "LISTEN_PORT"
    let withPort : Except LoadError Config :=
      if listenPort ≠ "" then
        match Atoi listenPort with
        | Except.error err => Except.error (LoadError.atoi err)
        | Except.ok port => Except.ok { cfg with ListenPort := port }
      else Except.ok cfg
    match withPort with
    | Except.error err => Loaded.failed err
    | Except.ok cfg =>
      if cfg.Hosts.length = 0 then Loaded.fatal noHostsMessage else Loaded.returned cfg

/-- An environment given by the list of its variables. -/
def environ (vars : List (String × String)) : Environ :=
  fun key => (vars.find? fun kv => kv.1 == key).map Prod.snd

/-! ## The words of the specification -/

/-- The number a sequence of decimal digits denotes, most significant digit first. -/
def decimalNat : List Char → Nat
  | [] => 0
  | d :: ds => (d.toNat - 48) * 10 ^ ds.length + decimalNat ds

/-- The integer that a sign and a sequence of characters denote when the sequence is
one or more decimal digits. -/
def signedDecimal (negative : Bool) (ds : List Char) : Option Int :=
  if ds ≠ [] ∧ ds.all Char.isDigit = true then
    some (if negative then -(decimalNat ds : Int) else (decimalNat ds : Int))
  else none

/-- The integer a decimal integer string denotes: an optional sign followed by one
or more decimal digits; `none` for every other string. -/
def decimalInteger (s : String) : Option Int :=
  match s.data with
  | [] => none
  | c :: cs =>
    if c = '-' then signedDecimal true cs
    else if c = '+' then signedDecimal false cs
    else signedDecimal false (c :: cs)

/-- The hosts the config file provides: those of its hosts key, none when there is no
file, the file does not load, or the key is left out. -/
def fileHosts : ConfigFile → List String
  | ConfigFile.parsed (some hs) _ => hs
  | _ => []

/-- The listen port the config file provides, if it provides one. -/
def filePort : ConfigFile → Option Int
  | ConfigFile.parsed _ (some p) => some p
  | _ => none

/-- The config file does not stop loadConfig: there is none, or it is read and
parsed. -/
def fileLoads : ConfigFile → Bool
  | ConfigFile.absent => true
  | ConfigFile.parsed _ _ => true
  | _ => false

/-- The configured host list: the entries of AWAIR_HOSTS when that variable has a
non-empty value, the hosts of the config file otherwise. -/
def configuredHosts (file : ConfigFile) (env : Environ) : List String :=
  if Getenv env "AWAIR_HOSTS" = "" then fileHosts file else Split (Getenv env "AWAIR_HOSTS") ','

/-- The setting of LISTEN_PORT is usable: the variable is unset or empty, or its
value is a decimal integer that fits a signed 64-bit integer. -/
def portUsable (env : Environ) : Prop :=
  Getenv env "LISTEN_PORT" = "" ∨
    ∃ v, decimalInteger (Getenv env "LISTEN_PORT") = some v ∧ -2 ^ 63 ≤ v ∧ v < 2 ^ 63

/-- How startup ends: a fatal log call ends the process (inside loadConfig, or in
main on the error loadConfig returned), or main reaches ListenAndServe with the
collector registered. -/
inductive Startup where
  | fatalNoHosts (msg : String)
  | fatalLoad (err : LoadError)
  | serve (collector : AwairCollector) (listenAddr : String)

/-- The startup ended in a fatal log call. -/
def Startup.isFatal : Startup → Bool
  | Startup.fatalNoHosts _ => true
  | Startup.fatalLoad _ => true
  | Startup.serve _ _ => false

/-- The function main, up to the call of ListenAndServe.  The hosts of the
configuration are texts; the collector gets them as Go strings. -/
def main (file : ConfigFile) (env : Environ) : Startup :=
  match loadConfig file env with
  | Loaded.fatal msg => Startup.fatalNoHosts msg
  | Loaded.failed err => Startup.fatalLoad err
  | Loaded.returned cfg =>
    Startup.serve (NewAwairCollector (cfg.Hosts.map utf8)) (":" ++ toString cfg.ListenPort)

/-- A config file that gives the hosts a and b and no port. -/
def fileAB : ConfigFile := ConfigFile.parsed (some ["a", "b"]) none

/-! ## The part of `encoding/json` that fetchData calls -/

/-- A JSON value.  A number keeps the text of its literal, a string its content. -/
inductive JSON where
  | null
  | bool (b : Bool)
  | number (literal : String)
  | string (s : String)
  | array (elems : List JSON)
  | object (members : List (String × JSON))

/-- What the decoder reads from the response body: the first JSON value of the
stream, or nothing when the stream does not start with a well-formed JSON value
(it is empty, truncated, or not JSON). -/
inductive Body where
  | invalid
  | value (v : JSON)

/-- The conversions of the Go runtime the decoder relies on, for the value types V
(float64) and T (time.Time): the zero values, `strconv.ParseFloat(s, 64)` on a
JSON number literal (`none` when the number is out of the float64 range) and the
strict RFC 3339 parse of `time.Time.UnmarshalJSON` on the content of a JSON
string. -/
structure Runtime (V T : Type) where
  zero : V
  zeroTime : T
  ParseFloat : String → Option V
  ParseTime : String → Option T

/-- The errors of Decode: the body is not JSON, a JSON value does not fit the Go
value it is stored in (`json.UnmarshalTypeError`), or the timestamp is not an
RFC 3339 string. -/
inductive DecodeError where
  | SyntaxError
  | UnmarshalTypeError (value : String)
  | TimeError
  deriving DecidableEq, Repr

/-- The fields of AwairData. -/
inductive Field where
  | Timestamp | Score | DewPoint | Temp | Humid | AbsHumid | CO2 | CO2Est | CO2EstBaseline
  | VOC | VOCBaseline | VOCH2Raw | VOCEthanolRaw | PM25 | PM10Est
  deriving DecidableEq, Repr

/-- The fields of AwairData in declaration order. -/
def Field.all : List Field :=
  [ Field.Timestamp, Field.Score, Field.DewPoint, Field.Temp, Field.Humid, Field.AbsHumid,
    Field.CO2, Field.CO2Est, Field.CO2EstBaseline, Field.VOC, Field.VOCBaseline,
    Field.VOCH2Raw, Field.VOCEthanolRaw, Field.PM25, Field.PM10Est ]

/-- The json tag of each field of AwairData. -/
def Field.tag : Field → String
  | Field.Timestamp => "timestamp"
  | Field.Score => "score"
  | Field.DewPoint => "dew_point"
  | Field.Temp => "temp"
  | Field.Humid => "humid"
  | Field.AbsHumid => "abs_humid"
  | Field.CO2 => "co2"
  | Field.CO2Est => "co2_est"
  | Field.CO2EstBaseline => "co2_est_baseline"
  | Field.VOC => "voc"
  | Field.VOCBaseline => "voc_baseline"
  | Field.VOCH2Raw => "voc_h2_raw"
  | Field.VOCEthanolRaw => "voc_ethanol_raw"
  | Field.PM25 => "pm25"
  | Field.PM10Est => "pm10_est"

/-- The case folding of one character in the key comparison of the decoder.  Go maps
every character to the least character of its case-folding orbit; the characters
that fold to an ASCII character are the ASCII letters, the long s (U+017F) and
the Kelvin sign (U+212A), and they are folded here as Go folds them.  Every other
character folds to a character outside ASCII and is left as it is, which does not
change whether a key equals one of the (ASCII) tags after folding. -/
def foldRune (c : Char) : Char :=
  if 'a'.toNat ≤ c.toNat ∧ c.toNat ≤ 'z'.toNat then Char.ofNat (c.toNat - 32)
  else if c.toNat = 0x17F then 'S'
  else if c.toNat = 0x212A then 'K'
  else c

/-- The folded form of a name (`foldName` of the decoder). -/
def foldName (s : String) : List Char :=
  s.data.map foldRune

/-- The field an object key is stored in: the field whose tag is the key, otherwise
the field whose tag equals the key after case folding, otherwise none (the
member is skipped; the decoder is not set to disallow unknown fields). -/
def fieldOf (key : String) : Option Field :=
  match Field.all.find? fun f => f.tag == key with
  | some f => some f
  | none => Field.all.find? fun f => foldName f.tag == foldName key

/-- The zero value of AwairData (`var data AwairData`). -/
def AwairData.zero {V T : Type} (rt : Runtime V T) : AwairData V T :=
  { Timestamp := rt.zeroTime, Score := rt.zero, DewPoint := rt.zero, Temp := rt.zero,
    Humid := rt.zero, AbsHumid := rt.zero, CO2 := rt.zero, CO2Est := rt.zero,
    CO2EstBaseline := rt.zero, VOC := rt.zero, VOCBaseline := rt.zero, VOCH2Raw := rt.zero,
    VOCEthanolRaw := rt.zero, PM25 := rt.zero, PM10Est := rt.zero }

/-- Assignment of a float64 to one of the fourteen numeric fields. -/
def AwairData.setFloat {V T : Type} (data : AwairData V T) (f : Field) (x : V) :
    AwairData V T :=
  match f with
  | Field.Timestamp => data
  | Field.Score => { data with Score := x }
  | Field.DewPoint => { data with DewPoint := x }
  | Field.Temp => { data with Temp := x }
  | Field.Humid => { data with Humid := x }
  | Field.AbsHumid => { data with AbsHumid := x }
  | Field.CO2 => { data with CO2 := x }
  | Field.CO2Est => { data with CO2Est := x }
  | Field.CO2EstBaseline => { data with CO2EstBaseline := x }
  | Field.VOC => { data with VOC := x }
  | Field.VOCBaseline => { data with VOCBaseline := x }
  | Field.VOCH2Raw => { data with VOCH2Raw := x }
  | Field.VOCEthanolRaw => { data with VOCEthanolRaw := x }
  | Field.PM25 => { data with PM25 := x }
  | Field.PM10Est => { data with PM10Est := x }

/-- The float64 held by one of the fourteen numeric fields; the timestamp holds
none. -/
def AwairData.float? {V T : Type} (data : AwairData V T) : Field → Option V
  | Field.Timestamp => none
  | Field.Score => some data.Score
  | Field.DewPoint => some data.DewPoint
  | Field.Temp => some data.Temp
  | Field.Humid => some data.Humid
  | Field.AbsHumid => some data.AbsHumid
  | Field.CO2 => some data.CO2
  | Field.CO2Est => some data.CO2Est
  | Field.CO2EstBaseline => some data.CO2EstBaseline
  | Field.VOC => some data.VOC
  | Field.VOCBaseline => some data.VOCBaseline
  | Field.VOCH2Raw => some data.VOCH2Raw
  | Field.VOCEthanolRaw => some data.VOCEthanolRaw
  | Field.PM25 => some data.PM25
  | Field.PM10Est => some data.PM10Est

/-- The state of the decoder while it fills an AwairData: the data so far and the
first type error it saved (the decoder goes on after a type error and reports it
at the end). -/
structure decodeState (V T : Type) where
  data : AwairData V T
  savedError : Option DecodeError

/-- The method `saveError` of the decoder: only the first error is kept. -/
def decodeState.saveError {V T : Type} (d : decodeState V T) (err : DecodeError) :
    decodeState V T :=
  match d.savedError with
  | none => { d with savedError := some err }
  | some _ => d

/-- Storing one JSON value in one field.  For the timestamp the value goes to
`time.Time.UnmarshalJSON`, whose error stops the decoder: null is a no-op, a
string is parsed, anything else is not a JSON string.  For a float64 field null
is a no-op, a number in range is stored, and every other value is a saved type
error. -/
def storeField {V T : Type} (rt : Runtime V T) (d : decodeState V T) (f : Field) (v : JSON) :
    Except DecodeError (decodeState V T) :=
  match f with
  | Field.Timestamp =>
    match v with
    | JSON.null => Except.ok d
    | JSON.string s =>
      match rt.ParseTime s with
      | some t => Except.ok { d with data := { d.data with Timestamp := t } }
      | none => Except.error DecodeError.TimeError
    | _ => Except.error DecodeError.TimeError
  | f =>
    match v with
    | JSON.null => Except.ok d
    | JSON.number literal =>
      match rt.ParseFloat literal with
      | some x => Except.ok { d with data := d.data.setFloat f x }
      | none => Except.ok (d.saveError (DecodeError.UnmarshalTypeError ("number " ++ literal)))
    | JSON.bool _ => Except.ok (d.saveError (DecodeError.UnmarshalTypeError "bool"))
    | JSON.string _ => Except.ok (d.saveError (DecodeError.UnmarshalTypeError "string"))
    | JSON.array _ => Except.ok (d.saveError (DecodeError.UnmarshalTypeError "array"))
    | JSON.object _ => Except.ok (d.saveError (DecodeError.UnmarshalTypeError "object"))

/-- One member of the object: it is stored in the field its key names, and skipped
when the key names no field. -/
def storeMember {V T : Type} (rt : Runtime V T) (d : decodeState V T)
    (member : String × JSON) : Except DecodeError (decodeState V T) :=
  match fieldOf member.1 with
  | none => Except.ok d
  | some f => storeField rt d f member.2

/-- The call `json.NewDecoder(resp.Body).Decode(&data)` on a zero AwairData: the result
is the error, or the data decoded. -/
def Decode {V T : Type} (rt : Runtime V T) (body : Body) :
    Except DecodeError (AwairData V T) :=
  match body with
  | Body.invalid => Except.error DecodeError.SyntaxError
  | Body.value v =>
    match v with
    | JSON.null => Except.ok (AwairData.zero rt)
    | JSON.bool _ => Except.error (DecodeError.UnmarshalTypeError "bool")
    | JSON.number _ => Except.error (DecodeError.UnmarshalTypeError "number")
    | JSON.string _ => Except.error (DecodeError.UnmarshalTypeError "string")
    | JSON.array _ => Except.error (DecodeError.UnmarshalTypeError "array")
    | JSON.object members =>
      match members.foldlM (storeMember rt) { data := AwairData.zero rt, savedError := none } with
      | Except.error err => Except.error err
      | Except.ok d =>
        match d.savedError with
        | some err => Except.error err
        | none => Except.ok d.data

/-- The errors of fetchData: the error of the GET or the error of the decoder. -/
inductive FetchError (N : Type) where
  | get (err : N)
  | decode (err : DecodeError)

/-- The method fetchData fetches and parses air quality data from a single Awair
device.  The argument `get` is the behaviour of `collector.httpClient.Get`: for a
URL, the transport error or the response body (the status code is not looked
at). -/
def AwairCollector.fetchData {V T N : Type} (rt : Runtime V T) (get : GoString → Except N Body)
    (_collector : AwairCollector) (host : GoString) : Except (FetchError N) (AwairData V T) :=
  let url := utf8 "http://" ++ host ++ utf8 "/air-data/latest"
  match get url with
  | Except.error err => Except.error (FetchError.get err)
  | Except.ok body =>
    match Decode rt body with
    | Except.error err => Except.error (FetchError.decode err)
    | Except.ok data => Except.ok data

/-- A runtime for the closed examples: a float64 is represented by an integer (only
integer literals parse) and a timestamp by its text.  No closed example parses a
timestamp. -/
def sampleRuntime : Runtime Int String :=
  { zero := 0, zeroTime := "0001-01-01T00:00:00Z", ParseFloat := decimalInteger,
    ParseTime := fun s => if s = "" then none else some s }

/-- The value can be stored in the field without an error: null in every field, a
number in the float64 range in a numeric field, an RFC 3339 string in the
timestamp. -/
def storable {V T : Type} (rt : Runtime V T) (f : Field) (v : JSON) : Bool :=
  match v with
  | JSON.null => true
  | JSON.number literal => f != Field.Timestamp && (rt.ParseFloat literal).isSome
  | JSON.string s => f == Field.Timestamp && (rt.ParseTime s).isSome
  | _ => false

/-- The member does not make the decoder fail: its key names no field, or its value
can be stored in the field its key names. -/
def memberAccepted {V T : Type} (rt : Runtime V T) (member : String × JSON) : Bool :=
  match fieldOf member.1 with
  | none => true
  | some f => storable rt f member.2

/-- The bodies the decoder accepts: the JSON value null, and every JSON object all of
whose members are accepted (the empty object included); fields may be missing
and unknown keys may be present. -/
def accepted {V T : Type} (rt : Runtime V T) : Body → Bool
  | Body.invalid => false
  | Body.value JSON.null => true
  | Body.value (JSON.object members) => members.all (memberAccepted rt)
  | Body.value _ => false

/-- A device that answers with the empty JSON object. -/
def getEmptyObject : GoString → Except String Body :=
  fun _ => Except.ok (Body.value (JSON.object []))

/-- A device that answers with an object that has the score and an unknown field. -/
def getScoreAndExtra : GoString → Except String Body :=
  fun _ => Except.ok (Body.value (JSON.object
    [("score", JSON.number "85"), ("extra", JSON.string "x")]))

/-- A device that answers with a body that is not JSON. -/
def getInvalid : GoString → Except String Body :=
  fun _ => Except.ok Body.invalid

/-! ## Lemmas and theorems -/

theorem sendConstMetric_device {V : Type} (sent : List (Metric V)) (n h : String) (v : V)
    (host : GoString) (hn : (NewDesc n h ["device"] []).err = none)
    (hv : ValidString host = true) :
    sendConstMetric (Except.ok sent) (NewDesc n h ["device"] []) ValueType.GaugeValue v host
      = Except.ok (sent ++ [gauge (NewDesc n h ["device"] []) v host]) := by
  simp [sendConstMetric, MustNewConstMetric, hn, hv, gauge, MakeLabelPairs]
  simp [NewDesc]

theorem sendConstMetric_invalid {V : Type} (sent : List (Metric V)) (d : Desc) (v : V)
    (host : GoString) (hv : ValidString host = false) :
    sendConstMetric (Except.ok sent) d ValueType.GaugeValue v host = Except.error sent := by
  simp [sendConstMetric, MustNewConstMetric, hv]

theorem sendConstMetric_error {V : Type} (sent : List (Metric V)) (d : Desc) (v : V)
    (host : GoString) :
    sendConstMetric (Except.error sent) d ValueType.GaugeValue v host = Except.error sent :=
  rfl

theorem isOk_cases {E α : Type} (r : Except E α) :
    (r.isOk = true ∧ ∃ d, r = Except.ok d) ∨ (r.isOk = false ∧ ∃ e, r = Except.error e) := by
  cases r with
  | error e => exact Or.inr ⟨rfl, e, rfl⟩
  | ok d => exact Or.inl ⟨rfl, d, rfl⟩

theorem collectHost_new {V T E : Type} (fetchData : GoString → Except E (AwairData V T))
    (hosts : List GoString) (st : Scrape V E) (host : GoString) :
    (NewAwairCollector hosts).collectHost fetchData st host
      = if panicsAt fetchData host = true then Except.error st
        else Except.ok { ch := st.ch ++ emitted fetchData (NewAwairCollector hosts) host
                         log := st.log ++ logged fetchData host } := by
  unfold AwairCollector.collectHost emitted logged panicsAt
  cases hf : fetchData host with
  | error e => simp [Except.isOk, Except.toBool]
  | ok data =>
    cases hv : ValidString host with
    | false =>
      simp only [sendConstMetric_invalid _ _ _ _ hv, sendConstMetric_error]
      simp [Except.isOk, Except.toBool]
    | true =>
      simp only [NewAwairCollector]
      repeat rw [sendConstMetric_device _ _ _ _ _ (by decide) hv]
      simp [hostMetrics, NewAwairCollector, Except.isOk, Except.toBool]

theorem foldlM_collectHost {V T E : Type} (fetchData : GoString → Except E (AwairData V T))
    (hosts l : List GoString) (st : Scrape V E) :
    l.foldlM ((NewAwairCollector hosts).collectHost fetchData) st
      = if (l.all fun h => !panicsAt fetchData h) = true then
          Except.ok { ch := st.ch ++ l.flatMap (emitted fetchData (NewAwairCollector hosts))
                      log := st.log ++ l.flatMap (logged fetchData) }
        else
          Except.error
            { ch := st.ch ++ (beforePanic fetchData l).flatMap
                (emitted fetchData (NewAwairCollector hosts))
              log := st.log ++ (beforePanic fetchData l).flatMap (logged fetchData) } := by
  induction l generalizing st with
  | nil => simp [beforePanic]; rfl
  | cons h t ih =>
    rw [List.foldlM_cons, collectHost_new]
    cases hp : panicsAt fetchData h with
    | true =>
      simp [hp, beforePanic, List.takeWhile_cons]
      rfl
    | false =>
      simp only [Bool.false_eq_true, if_false]
      have : (Except.ok
            ({ ch := st.ch ++ emitted fetchData (NewAwairCollector hosts) h
               log := st.log ++ logged fetchData h } : Scrape V E)
            >>= fun s => List.foldlM ((NewAwairCollector hosts).collectHost fetchData) s t)
          = List.foldlM ((NewAwairCollector hosts).collectHost fetchData)
              { ch := st.ch ++ emitted fetchData (NewAwairCollector hosts) h
                log := st.log ++ logged fetchData h } t := rfl
      rw [this, ih]
      simp [hp, beforePanic, List.takeWhile_cons, List.append_assoc]

theorem hosts_new (hosts : List GoString) : (NewAwairCollector hosts).hosts = hosts := rfl

/-- The pass over any host list, in closed form. -/
theorem collect_new {V T E : Type} (fetchData : GoString → Except E (AwairData V T))
    (hosts : List GoString) :
    (NewAwairCollector hosts).Collect fetchData
      = if (hosts.all fun h => !panicsAt fetchData h) = true then
          Except.ok { ch := hosts.flatMap (emitted fetchData (NewAwairCollector hosts))
                      log := hosts.flatMap (logged fetchData) }
        else
          Except.error
            { ch := (beforePanic fetchData hosts).flatMap
                (emitted fetchData (NewAwairCollector hosts))
              log := (beforePanic fetchData hosts).flatMap (logged fetchData) } := by
  unfold AwairCollector.Collect
  rw [hosts_new, foldlM_collectHost]
  simp

theorem all_not_panicsAt {V T E : Type} (fetchData : GoString → Except E (AwairData V T))
    (hosts : List GoString) :
    (hosts.all fun h => !panicsAt fetchData h) = true ↔
      ∀ h ∈ hosts, (fetchData h).isOk = true → ValidString h = true := by
  simp only [List.all_eq_true, panicsAt, Bool.not_eq_true', Bool.and_eq_false_iff,
    Bool.not_eq_false']
  constructor
  · intro h x hx hok
    rcases h x hx with h1 | h1
    · rw [h1] at hok
      cases hok
    · exact h1
  · intro h x hx
    cases hok : (fetchData x).isOk with
    | false => exact Or.inl rfl
    | true => exact Or.inr (h x hx hok)

/-- The pass over a host list whose succeeding entries are valid UTF-8 runs to its
end. -/
theorem collect_valid {V T E : Type} (fetchData : GoString → Except E (AwairData V T))
    (hosts : List GoString)
    (hv : ∀ h ∈ hosts, (fetchData h).isOk = true → ValidString h = true) :
    (NewAwairCollector hosts).Collect fetchData
      = Except.ok { ch := hosts.flatMap (emitted fetchData (NewAwairCollector hosts))
                    log := hosts.flatMap (logged fetchData) } := by
  rw [collect_new, if_pos ((all_not_panicsAt fetchData hosts).mpr hv)]

/-- The pass over a host list with a succeeding entry that is not valid UTF-8
panics, having produced the output of the entries before the first such entry. -/
theorem collect_panics {V T E : Type} (fetchData : GoString → Except E (AwairData V T))
    (hosts : List GoString)
    (hv : ∃ h ∈ hosts, (fetchData h).isOk = true ∧ ValidString h = false) :
    (NewAwairCollector hosts).Collect fetchData
      = Except.error
          { ch := (beforePanic fetchData hosts).flatMap
              (emitted fetchData (NewAwairCollector hosts))
            log := (beforePanic fetchData hosts).flatMap (logged fetchData) } := by
  rw [collect_new, if_neg]
  intro hall
  obtain ⟨h, hh, hok, hbad⟩ := hv
  have := (all_not_panicsAt fetchData hosts).mp hall h hh hok
  rw [hbad] at this
  cases this

/-- The descriptors do not depend on the host list. -/
theorem emitted_hosts_irrel {V T E : Type} (fetchData : GoString → Except E (AwairData V T))
    (xs ys : List GoString) (host : GoString) :
    emitted fetchData (NewAwairCollector xs) host = emitted fetchData (NewAwairCollector ys) host := rfl

theorem describe_names (hosts : List GoString) :
    (NewAwairCollector hosts).Describe.map Desc.fqName = metricNames := rfl

theorem metricNames_nodup : metricNames.Nodup := by decide

theorem emitted_ok {V T E : Type} {fetchData : GoString → Except E (AwairData V T)}
    (c : AwairCollector) {host : GoString} {data : AwairData V T}
    (h : fetchData host = Except.ok data) :
    emitted fetchData c host = hostMetrics c host data := by
  simp [emitted, h]

theorem emitted_error {V T E : Type} {fetchData : GoString → Except E (AwairData V T)}
    (c : AwairCollector) {host : GoString} (h : (fetchData host).isOk = false) :
    emitted fetchData c host = [] := by
  unfold emitted
  cases hf : fetchData host with
  | error e => rfl
  | ok d => simp [hf, Except.isOk, Except.toBool] at h

theorem emitted_length {V T E : Type} (fetchData : GoString → Except E (AwairData V T))
    (c : AwairCollector) (host : GoString) :
    (emitted fetchData c host).length = if (fetchData host).isOk then 14 else 0 := by
  rcases isOk_cases (fetchData host) with ⟨hk, d, hd⟩ | ⟨hk, _, _⟩
  · simp [emitted_ok c hd, hk, hostMetrics]
  · simp [emitted_error c hk, hk]

theorem emitted_label {V T E : Type} (fetchData : GoString → Except E (AwairData V T))
    (c : AwairCollector) (host : GoString) :
    ∀ m ∈ emitted fetchData c host,
      (fetchData host).isOk = true ∧ m.labelPairs = [("device", host)] := by
  intro m hm
  rcases isOk_cases (fetchData host) with ⟨hk, d, hd⟩ | ⟨hk, _, _⟩
  · refine ⟨hk, ?_⟩
    rw [emitted_ok c hd] at hm
    simp only [hostMetrics, List.mem_cons, List.mem_singleton, List.not_mem_nil, or_false] at hm
    rcases hm with h | h | h | h | h | h | h | h | h | h | h | h | h | h <;> (rw [h]; rfl)
  · rw [emitted_error c hk] at hm
    cases hm

theorem filter_label_emitted {V T E : Type} (fetchData : GoString → Except E (AwairData V T))
    (c : AwairCollector) (host h : GoString) :
    ((emitted fetchData c host).filter fun m => decide (m.labelPairs = [("device", h)]))
      = if host = h then emitted fetchData c host else [] := by
  by_cases hh : host = h
  · subst hh
    simp only [if_true]
    apply List.filter_eq_self.mpr
    intro m hm
    simp [(emitted_label fetchData c host m hm).2]
  · simp only [hh, if_false]
    apply List.filter_eq_nil_iff.mpr
    intro m hm
    simp [(emitted_label fetchData c host m hm).2, hh]

theorem length_filter_label {V T E : Type} (fetchData : GoString → Except E (AwairData V T))
    (c : AwairCollector) (hosts : List GoString) (h : GoString) :
    ((hosts.flatMap (emitted fetchData c)).filter
        fun m => decide (m.labelPairs = [("device", h)])).length
      = if (fetchData h).isOk then 14 * hosts.count h else 0 := by
  induction hosts with
  | nil => simp
  | cons a t ih =>
    rw [List.flatMap_cons, List.filter_append, List.length_append, ih, filter_label_emitted]
    by_cases ha : a = h
    · subst ha
      simp only [if_true, emitted_length, List.count_cons_self]
      split <;> omega
    · have : (a == h) = false := by simpa using ha
      simp only [ha, if_false, List.length_nil, List.count_cons, this]
      simp

theorem length_flatMap_emitted {V T E : Type} (fetchData : GoString → Except E (AwairData V T))
    (c : AwairCollector) (hosts : List GoString) :
    (hosts.flatMap (emitted fetchData c)).length
      = 14 * (hosts.filter fun h => (fetchData h).isOk).length := by
  induction hosts with
  | nil => simp
  | cons a t ih =>
    rw [List.flatMap_cons, List.length_append, ih, emitted_length, List.filter_cons]
    split
    · simp
      omega
    · simp

theorem mem_flatMap_emitted {V T E : Type} (fetchData : GoString → Except E (AwairData V T))
    (c : AwairCollector) (hosts : List GoString) :
    ∀ m ∈ hosts.flatMap (emitted fetchData c),
      ∃ h ∈ hosts, (fetchData h).isOk = true ∧ m.labelPairs = [("device", h)] := by
  intro m hm
  obtain ⟨h, hh, hm⟩ := List.mem_flatMap.mp hm
  exact ⟨h, hh, emitted_label fetchData c h m hm⟩

theorem desc_emitted {V T E : Type} (fetchData : GoString → Except E (AwairData V T))
    (hosts : List GoString) (host : GoString) :
    (emitted fetchData (NewAwairCollector hosts) host).map Metric.desc
      = if (fetchData host).isOk then (NewAwairCollector hosts).Describe else [] := by
  unfold emitted
  cases fetchData host with
  | error e => rfl
  | ok data => rfl

theorem describe_schema :
    ∀ d ∈ (NewAwairCollector []).Describe,
      d.variableLabels = ["device"] ∧ d.constLabelPairs = [] ∧ d.err = none := by
  decide

theorem flatMap_emitted_filter {V T E : Type} (fetchData : GoString → Except E (AwairData V T))
    (c : AwairCollector) (hosts : List GoString) :
    (hosts.filter fun h => (fetchData h).isOk).flatMap (emitted fetchData c)
      = hosts.flatMap (emitted fetchData c) := by
  induction hosts with
  | nil => rfl
  | cons a t ih =>
    rw [List.filter_cons, List.flatMap_cons]
    cases ha : (fetchData a).isOk
    · simp [ih, emitted_error c ha]
    · simp [ih]

theorem emitted_congr {V T E : Type} (f g : GoString → Except E (AwairData V T))
    (c : AwairCollector) (host : GoString) (h : g host = f host) :
    emitted g c host = emitted f c host := by
  simp [emitted, h]

theorem filter_name_hostMetrics {V T : Type} (hosts : List GoString) (host : GoString)
    (data : AwairData V T) :
    ∀ n ∈ metricNames,
      ((hostMetrics (NewAwairCollector hosts) host data).filter fun m =>
        decide (m.desc.fqName = n ∧ m.labelPairs = [("device", host)])).length = 1 := by
  intro n hn
  simp only [metricNames, List.mem_cons, List.mem_singleton, List.not_mem_nil, or_false] at hn
  rcases hn with h | h | h | h | h | h | h | h | h | h | h | h | h | h <;> subst h <;>
    simp [hostMetrics, gauge, NewAwairCollector, NewDesc, List.filter]

theorem filter_name_emitted {V T E : Type} (fetchData : GoString → Except E (AwairData V T))
    (hosts : List GoString) (host h : GoString) (n : String) (hn : n ∈ metricNames) :
    ((emitted fetchData (NewAwairCollector hosts) host).filter fun m =>
        decide (m.desc.fqName = n ∧ m.labelPairs = [("device", h)])).length
      = if host = h ∧ (fetchData host).isOk = true then 1 else 0 := by
  by_cases hh : host = h
  · subst hh
    rcases isOk_cases (fetchData host) with ⟨hk, d, hd⟩ | ⟨hk, _, _⟩
    · rw [emitted_ok _ hd, filter_name_hostMetrics hosts host d n hn]
      simp [hk]
    · simp [emitted_error _ hk, hk]
  · have : ((emitted fetchData (NewAwairCollector hosts) host).filter fun m =>
        decide (m.desc.fqName = n ∧ m.labelPairs = [("device", h)])) = [] := by
      apply List.filter_eq_nil_iff.mpr
      intro m hm
      simp [(emitted_label fetchData _ host m hm).2, hh]
    rw [this]
    simp [hh]

theorem length_filter_name {V T E : Type} (fetchData : GoString → Except E (AwairData V T))
    (hosts l : List GoString) (h : GoString) (n : String) (hn : n ∈ metricNames)
    (hk : (fetchData h).isOk = true) :
    ((l.flatMap (emitted fetchData (NewAwairCollector hosts))).filter fun m =>
        decide (m.desc.fqName = n ∧ m.labelPairs = [("device", h)])).length = l.count h := by
  induction l with
  | nil => simp
  | cons a t ih =>
    rw [List.flatMap_cons, List.filter_append, List.length_append, ih,
      filter_name_emitted fetchData hosts a h n hn]
    by_cases ha : a = h
    · subst ha
      simp [hk]
      omega
    · have hb : (a == h) = false := by simpa using ha
      simp [ha, List.count_cons, hb]

theorem mem_keys_emitted {V T E : Type} (fetchData : GoString → Except E (AwairData V T))
    (hosts : List GoString) (host : GoString) (k : String × List (String × GoString)) :
    k ∈ (emitted fetchData (NewAwairCollector hosts) host).map seriesKey ↔
      (fetchData host).isOk = true ∧ k.1 ∈ metricNames ∧ k.2 = [("device", host)] := by
  rcases isOk_cases (fetchData host) with ⟨hk, d, hd⟩ | ⟨hk, _, _⟩
  · rw [emitted_ok _ hd]
    obtain ⟨n, l⟩ := k
    simp only [hostMetrics, gauge, seriesKey, NewAwairCollector, NewDesc, List.map_cons,
      List.map_nil, List.mem_cons, List.mem_singleton, List.not_mem_nil, or_false,
      Prod.mk.injEq, metricNames, hk, true_and]
    constructor
    · intro h
      rcases h with h | h | h | h | h | h | h | h | h | h | h | h | h | h <;>
        simp [h.1, h.2]
    · rintro ⟨h, rfl⟩
      rcases h with h | h | h | h | h | h | h | h | h | h | h | h | h | h <;> simp [h]
  · simp [emitted_error _ hk, hk]

theorem nodup_keys_emitted {V T E : Type} (fetchData : GoString → Except E (AwairData V T))
    (hosts : List GoString) (host : GoString) :
    ((emitted fetchData (NewAwairCollector hosts) host).map seriesKey).Nodup := by
  rcases isOk_cases (fetchData host) with ⟨hk, d, hd⟩ | ⟨hk, _, _⟩
  · rw [emitted_ok _ hd]
    have : (hostMetrics (NewAwairCollector hosts) host d).map seriesKey
        = metricNames.map fun n => (n, [("device", host)]) := rfl
    rw [this]
    exact metricNames_nodup.map (fun a b hab => (Prod.mk.inj hab).1)
  · simp [emitted_error _ hk]

theorem nodup_keys_flatMap {V T E : Type} (fetchData : GoString → Except E (AwairData V T))
    (hosts l : List GoString) :
    ((l.flatMap (emitted fetchData (NewAwairCollector hosts))).map seriesKey).Nodup ↔
      ∀ h, (fetchData h).isOk = true → l.count h ≤ 1 := by
  induction l with
  | nil => simp
  | cons a t ih =>
    rw [List.flatMap_cons, List.map_append, List.nodup_append, ih]
    constructor
    · rintro ⟨_, ht, hdis⟩ h hk
      by_cases ha : a = h
      · subst ha
        have hnot : a ∉ t := by
          intro hmem
          have h1 : ("awair_score", [("device", a)])
              ∈ (emitted fetchData (NewAwairCollector hosts) a).map seriesKey :=
            (mem_keys_emitted fetchData hosts a _).mpr
              ⟨hk, (by decide : "awair_score" ∈ metricNames), rfl⟩
          have h2 : ("awair_score", [("device", a)])
              ∈ (t.flatMap (emitted fetchData (NewAwairCollector hosts))).map seriesKey := by
            rw [List.map_flatMap]
            exact List.mem_flatMap.mpr ⟨a, hmem, h1⟩
          exact hdis h1 h2
        simp [List.count_eq_zero_of_not_mem hnot]
      · have hb : (a == h) = false := by simpa using ha
        simpa [List.count_cons, hb] using ht h hk
    · intro hall
      refine ⟨nodup_keys_emitted fetchData hosts a, ?_, ?_⟩
      · intro h hk
        have := hall h hk
        rw [List.count_cons] at this
        omega
      · intro k h1 h2
        obtain ⟨hk, _, hl⟩ := (mem_keys_emitted fetchData hosts a k).mp h1
        rw [List.map_flatMap] at h2
        obtain ⟨b, hb, h3⟩ := List.mem_flatMap.mp h2
        obtain ⟨_, _, hl2⟩ := (mem_keys_emitted fetchData hosts b k).mp h3
        have hab : a = b := by
          rw [hl] at hl2
          simpa using hl2
        subst hab
        have := hall a hk
        have hpos : 0 < t.count a := List.count_pos_iff.mpr hb
        simp [List.count_cons] at this
        omega

/-- C1 (as stated, refuted): the single configured host h\xff is not valid UTF-8 and
its fetch succeeds, yet the pass emits no instance for it: the first
MustNewConstMetric panics on the label value. -/
theorem C1_counterexample_non_utf8_host :
    (fetchAll badHost).isOk = true ∧ ValidString badHost = false ∧
      (NewAwairCollector [badHost]).Collect fetchAll
        = Except.error { ch := [], log := [] } := by
  refine ⟨rfl, by decide, ?_⟩
  rfl

/-- C1 (amended): with the per-host fetch a function from host to an error or a
reading, for every host list in which every entry whose fetch succeeds is valid
UTF-8, one Collect pass runs to its end and emits 14 instances for each list
entry whose fetch succeeded, all labeled device=that host, and none labeled with
a host whose fetch failed; the total is 14 times the number of list entries whose
fetch succeeded.  When an entry whose fetch succeeds is not valid UTF-8 the pass
panics at the first such entry, having emitted the 14 instances of each
succeeding entry before it and nothing else. -/
theorem C1_collect_fourteen_per_successful_host {V T E : Type}
    (fetchData : GoString → Except E (AwairData V T)) (hosts : List GoString) :
    ((∀ h ∈ hosts, (fetchData h).isOk = true → ValidString h = true) →
      ∃ out, (NewAwairCollector hosts).Collect fetchData = Except.ok out ∧
        out.ch.length = 14 * (hosts.filter fun h => (fetchData h).isOk).length ∧
        (∀ m ∈ out.ch, ∃ h ∈ hosts, (fetchData h).isOk = true ∧
          m.labelPairs = [("device", h)]) ∧
        (∀ h, (out.ch.filter fun m => decide (m.labelPairs = [("device", h)])).length
          = if (fetchData h).isOk then 14 * hosts.count h else 0)) ∧
      ((∃ h ∈ hosts, (fetchData h).isOk = true ∧ ValidString h = false) →
        ∃ out, (NewAwairCollector hosts).Collect fetchData = Except.error out ∧
          out.ch.length
            = 14 * ((beforePanic fetchData hosts).filter fun h => (fetchData h).isOk).length ∧
          (∀ m ∈ out.ch, ∃ h ∈ beforePanic fetchData hosts, (fetchData h).isOk = true ∧
            m.labelPairs = [("device", h)]) ∧
          (∀ h, (out.ch.filter fun m => decide (m.labelPairs = [("device", h)])).length
            = if (fetchData h).isOk then 14 * (beforePanic fetchData hosts).count h else 0)) := by
  constructor
  · intro hv
    exact ⟨_, collect_valid fetchData hosts hv, length_flatMap_emitted _ _ _,
      mem_flatMap_emitted _ _ _, length_filter_label _ _ _⟩
  · intro hv
    exact ⟨_, collect_panics fetchData hosts hv, length_flatMap_emitted _ _ _,
      mem_flatMap_emitted _ _ _, length_filter_label _ _ _⟩

/-- C1 (amended), at the hosts [h1, h2] with h1 healthy and h2 unreachable: the pass
emits exactly 14 instances, all labeled device=h1, and none labeled device=h2. -/
theorem C1_witness_h1_healthy_h2_unreachable :
    ∃ out, (NewAwairCollector [utf8 "h1", utf8 "h2"]).Collect fetchOnlyH1 = Except.ok out ∧
      out.ch.length = 14 ∧
      (∀ m ∈ out.ch, m.labelPairs = [("device", utf8 "h1")]) ∧
      (out.ch.filter fun m => decide (m.labelPairs = [("device", utf8 "h2")])) = [] := by
  obtain ⟨out, hout, hlen, hmem, hcount⟩ :=
    (C1_collect_fourteen_per_successful_host fetchOnlyH1 [utf8 "h1", utf8 "h2"]).1 (by decide)
  refine ⟨out, hout, ?_, ?_, ?_⟩
  · rw [hlen]
    decide
  · intro m hm
    obtain ⟨h, hh, hok, hl⟩ := hmem m hm
    simp only [List.mem_cons, List.mem_singleton, List.not_mem_nil, or_false] at hh
    rcases hh with rfl | rfl
    · exact hl
    · exact absurd hok (by decide)
  · have := hcount (utf8 "h2")
    rw [if_neg (by decide)] at this
    exact List.length_eq_zero.mp this

/-- C2 (as stated, refuted): for the host list [h1, h\xff] with both fetches
succeeding, the reading of h\xff gets no instance at all: the pass emits the 14
instances of h1 and then panics, so the fields of the second reading are
dropped. -/
theorem C2_counterexample_fields_dropped :
    (fetchAll (utf8 "h1")).isOk = true ∧ (fetchAll badHost).isOk = true ∧
      ∃ out, (NewAwairCollector [utf8 "h1", badHost]).Collect fetchAll = Except.error out ∧
        out.ch.map (fun m => m.labelPairs) = List.replicate 14 [("device", utf8 "h1")] :=
  ⟨rfl, rfl, _, rfl, by decide⟩

/-- C2 (amended): for every host list in which every entry whose fetch succeeds is
valid UTF-8, the pass runs to its end and each host whose fetch returned a
reading contributes, in order, exactly one gauge instance per reading field: the
field's value unchanged, under the correspondingly-named descriptor, with the
single label pair device=host. -/
theorem C2_one_gauge_per_field {V T E : Type}
    (fetchData : GoString → Except E (AwairData V T)) (hosts : List GoString)
    (hv : ∀ h ∈ hosts, (fetchData h).isOk = true → ValidString h = true) :
    ∃ out, (NewAwairCollector hosts).Collect fetchData = Except.ok out ∧
      (out.ch.map fun m => (m.desc.fqName, m.valType, m.val, m.labelPairs))
        = hosts.flatMap fun host =>
            match fetchData host with
            | Except.error _ => []
            | Except.ok data =>
              [ ("awair_score", ValueType.GaugeValue, data.Score, [("device", host)])
              , ("awair_dew_point_celsius", ValueType.GaugeValue, data.DewPoint,
                  [("device", host)])
              , ("awair_temperature_celsius", ValueType.GaugeValue, data.Temp,
                  [("device", host)])
              , ("awair_humidity_percent", ValueType.GaugeValue, data.Humid,
                  [("device", host)])
              , ("awair_absolute_humidity_g_m3", ValueType.GaugeValue, data.AbsHumid,
                  [("device", host)])
              , ("awair_co2_ppm", ValueType.GaugeValue, data.CO2, [("device", host)])
              , ("awair_co2_estimated_ppm", ValueType.GaugeValue, data.CO2Est,
                  [("device", host)])
              , ("awair_co2_estimated_baseline", ValueType.GaugeValue, data.CO2EstBaseline,
                  [("device", host)])
              , ("awair_voc_ppb", ValueType.GaugeValue, data.VOC, [("device", host)])
              , ("awair_voc_baseline", ValueType.GaugeValue, data.VOCBaseline,
                  [("device", host)])
              , ("awair_voc_h2_raw", ValueType.GaugeValue, data.VOCH2Raw, [("device", host)])
              , ("awair_voc_ethanol_raw", ValueType.GaugeValue, data.VOCEthanolRaw,
                  [("device", host)])
              , ("awair_pm25_ug_m3", ValueType.GaugeValue, data.PM25, [("device", host)])
              , ("awair_pm10_estimated_ug_m3", ValueType.GaugeValue, data.PM10Est,
                  [("device", host)]) ] := by
  refine ⟨_, collect_valid fetchData hosts hv, ?_⟩
  simp only [List.map_flatMap]
  congr 1
  funext host
  unfold emitted
  cases fetchData host with
  | error e => rfl
  | ok data => rfl

/-- C2 (amended), at the single healthy host h1 with the sample reading: the 14
instances carry the 14 field values under the 14 names. -/
theorem C2_witness_sample_reading :
    (∀ h ∈ [utf8 "h1"], (fetchAll h).isOk = true → ValidString h = true) ∧
      ∃ out, (NewAwairCollector [utf8 "h1"]).Collect fetchAll = Except.ok out ∧
        (out.ch.map fun m => (m.desc.fqName, m.val))
          = [ ("awair_score", 85), ("awair_dew_point_celsius", 10),
              ("awair_temperature_celsius", 21), ("awair_humidity_percent", 40),
              ("awair_absolute_humidity_g_m3", 7), ("awair_co2_ppm", 600),
              ("awair_co2_estimated_ppm", 610), ("awair_co2_estimated_baseline", 35000),
              ("awair_voc_ppb", 120), ("awair_voc_baseline", 37000), ("awair_voc_h2_raw", 25),
              ("awair_voc_ethanol_raw", 36), ("awair_pm25_ug_m3", 3),
              ("awair_pm10_estimated_ug_m3", 4) ] := by
  refine ⟨by decide, ?_⟩
  obtain ⟨out, hout, htab⟩ := C2_one_gauge_per_field fetchAll [utf8 "h1"] (by decide)
  refine ⟨out, hout, ?_⟩
  have := congrArg (List.map fun r => (r.1, r.2.2.1)) htab
  simpa [fetchAll, sampleReading] using this

/-- C7 (as stated, refuted): the fetch of the host h\xff succeeds, yet the pass emits
no instance for it, so the descriptors of its instances are not the 14 of
Describe. -/
theorem C7_counterexample_no_descriptors :
    (fetchAll badHost).isOk = true ∧
      (NewAwairCollector [badHost]).Describe.length = 14 ∧
      ∃ out, (NewAwairCollector [badHost]).Collect fetchAll = Except.error out ∧
        out.ch.map Metric.desc = [] :=
  ⟨rfl, rfl, _, rfl, rfl⟩

/-- C7 (amended): the metric schema is fixed.  Describe emits 14 descriptors, whatever
the host list; their names are pairwise distinct and each has the label schema
[device].  For every host list in which every entry whose fetch succeeds is valid
UTF-8 the pass runs to its end and the descriptors of the instances of each host
whose fetch succeeded are the Describe sequence, in the same order.  Whether the
pass runs to its end or panics, every instance it emitted has a described
descriptor. -/
theorem C7_schema_fixed {V T E : Type}
    (fetchData : GoString → Except E (AwairData V T)) (hosts : List GoString) :
    (NewAwairCollector hosts).Describe.length = 14 ∧
      (NewAwairCollector hosts).Describe = (NewAwairCollector []).Describe ∧
      ((NewAwairCollector hosts).Describe.map Desc.fqName).Nodup ∧
      (∀ d ∈ (NewAwairCollector hosts).Describe,
        d.variableLabels = ["device"] ∧ d.constLabelPairs = [] ∧ d.err = none) ∧
      ((∀ h ∈ hosts, (fetchData h).isOk = true → ValidString h = true) →
        ∃ out, (NewAwairCollector hosts).Collect fetchData = Except.ok out ∧
          out.ch.map Metric.desc
            = (hosts.filter fun h => (fetchData h).isOk).flatMap
                (fun _ => (NewAwairCollector hosts).Describe)) ∧
      (∀ out, ((NewAwairCollector hosts).Collect fetchData = Except.ok out ∨
          (NewAwairCollector hosts).Collect fetchData = Except.error out) →
        ∀ m ∈ out.ch, m.desc ∈ (NewAwairCollector hosts).Describe) := by
  have hdesc : ∀ (l : List GoString),
      ∀ m ∈ l.flatMap (emitted fetchData (NewAwairCollector hosts)),
        m.desc ∈ (NewAwairCollector hosts).Describe := by
    intro l m hm
    obtain ⟨h, _, hm⟩ := List.mem_flatMap.mp hm
    have := desc_emitted fetchData hosts h
    have hmem : m.desc ∈ (emitted fetchData (NewAwairCollector hosts) h).map Metric.desc :=
      List.mem_map_of_mem _ hm
    rw [this] at hmem
    split at hmem
    · exact hmem
    · cases hmem
  refine ⟨rfl, rfl, by rw [describe_names]; exact metricNames_nodup, ?_, ?_, ?_⟩
  · intro d hd
    exact describe_schema d hd
  · intro hv
    refine ⟨_, collect_valid fetchData hosts hv, ?_⟩
    simp only [List.map_flatMap, desc_emitted]
    clear hv hdesc
    induction hosts with
    | nil => rfl
    | cons a t ih =>
      rw [List.flatMap_cons, List.filter_cons]
      have hd : (NewAwairCollector (a :: t)).Describe = (NewAwairCollector t).Describe := rfl
      simp only [hd] at ih ⊢
      rw [ih]
      cases (fetchData a).isOk <;> simp
  · intro out hout m hm
    rw [collect_new] at hout
    split at hout
    · rcases hout with h | h
      · cases h
        exact hdesc _ m hm
      · cases h
    · rcases hout with h | h
      · cases h
      · cases h
        exact hdesc _ m hm

/-- C7 (amended), at the hosts [h1, h2] with h1 healthy and h2 unreachable: the
descriptors of the emitted instances are the Describe sequence, once. -/
theorem C7_witness_descriptors_of_h1 :
    ∃ out, (NewAwairCollector [utf8 "h1", utf8 "h2"]).Collect fetchOnlyH1 = Except.ok out ∧
      out.ch.map Metric.desc = (NewAwairCollector [utf8 "h1", utf8 "h2"]).Describe := by
  obtain ⟨out, hout, hd⟩ :=
    (C7_schema_fixed fetchOnlyH1 [utf8 "h1", utf8 "h2"]).2.2.2.2.1 (by decide)
  refine ⟨out, hout, ?_⟩
  rw [hd]
  decide

theorem beforePanic_append_of_panic {V T E : Type}
    (fetchData : GoString → Except E (AwairData V T)) (xs ys : List GoString)
    (hx : ∃ h ∈ xs, (fetchData h).isOk = true ∧ ValidString h = false) :
    beforePanic fetchData (xs ++ ys) = beforePanic fetchData xs := by
  induction xs with
  | nil =>
    obtain ⟨h, hh, _⟩ := hx
    cases hh
  | cons a t ih =>
    unfold beforePanic at ih ⊢
    rw [List.cons_append, List.takeWhile_cons, List.takeWhile_cons]
    cases hp : panicsAt fetchData a with
    | true => simp
    | false =>
      simp only [Bool.not_false, if_true]
      congr 1
      apply ih
      obtain ⟨h, hh, hok, hbad⟩ := hx
      rcases List.mem_cons.mp hh with rfl | hh
      · simp [panicsAt, hok, hbad] at hp
      · exact ⟨h, hh, hok, hbad⟩

/-- C8 (as stated, refuted): with every fetch succeeding, xs = [h\xff] and ys = [h1],
the pass over ys emits 14 instances, but the pass over xs ++ ys panics at the
first host and emits nothing: it is not the output over xs followed by the
output over ys, and what is emitted for the healthy host h1 depends on the other
configured host. -/
theorem C8_counterexample_panic_blocks_later_hosts :
    (∃ b, (NewAwairCollector [utf8 "h1"]).Collect fetchAll = Except.ok b ∧ b.ch.length = 14) ∧
      (NewAwairCollector [badHost]).Collect fetchAll = Except.error { ch := [], log := [] } ∧
      (NewAwairCollector ([badHost] ++ [utf8 "h1"])).Collect fetchAll
        = Except.error { ch := [], log := [] } :=
  ⟨⟨_, rfl, rfl⟩, rfl, rfl⟩

/-- C8 (amended): per-host independence and order, for host lists in which every
entry whose fetch succeeds is valid UTF-8.  With a fixed fetch outcome per host,
for such xs and ys the passes over xs, over ys and over xs ++ ys all run to their
end, and the output (and the log) over xs ++ ys is that over xs followed by that
over ys; removing every failing host from a list leaves the emitted instances
unchanged; and the instances of a host h inside any such list, under any fetch
that agrees at h, are those of the pass over [h] alone, placed between those of
the hosts before and after it.  When the pass over xs panics, the pass over
xs ++ ys is that same panicked pass. -/
theorem C8_collect_append {V T E : Type}
    (fetchData : GoString → Except E (AwairData V T)) (xs ys : List GoString) :
    ((∀ h ∈ xs ++ ys, (fetchData h).isOk = true → ValidString h = true) →
      ∃ a b, (NewAwairCollector xs).Collect fetchData = Except.ok a ∧
        (NewAwairCollector ys).Collect fetchData = Except.ok b ∧
        (NewAwairCollector (xs ++ ys)).Collect fetchData
          = Except.ok { ch := a.ch ++ b.ch, log := a.log ++ b.log } ∧
        (∃ o, (NewAwairCollector (xs.filter fun h => (fetchData h).isOk)).Collect fetchData
            = Except.ok o ∧ o.ch = a.ch)) ∧
      (∀ (g : GoString → Except E (AwairData V T)) (h : GoString), g h = fetchData h →
        (∀ x ∈ xs ++ h :: ys, (g x).isOk = true → ValidString x = true) →
        ∃ p s single, (NewAwairCollector xs).Collect g = Except.ok p ∧
          (NewAwairCollector ys).Collect g = Except.ok s ∧
          (NewAwairCollector [h]).Collect fetchData = Except.ok single ∧
          (NewAwairCollector (xs ++ h :: ys)).Collect g
            = Except.ok { ch := p.ch ++ single.ch ++ s.ch, log := p.log ++ single.log ++ s.log }) ∧
      ((∃ h ∈ xs, (fetchData h).isOk = true ∧ ValidString h = false) →
        ∃ out, (NewAwairCollector xs).Collect fetchData = Except.error out ∧
          (NewAwairCollector (xs ++ ys)).Collect fetchData = Except.error out) := by
  refine ⟨?_, ?_, ?_⟩
  · intro hv
    have hx : ∀ h ∈ xs, (fetchData h).isOk = true → ValidString h = true :=
      fun h hh => hv h (List.mem_append_left _ hh)
    have hy : ∀ h ∈ ys, (fetchData h).isOk = true → ValidString h = true :=
      fun h hh => hv h (List.mem_append_right _ hh)
    refine ⟨_, _, collect_valid fetchData xs hx, collect_valid fetchData ys hy, ?_, ?_⟩
    · rw [collect_valid fetchData _ hv]
      simp only [List.flatMap_append]
      rfl
    · refine ⟨_, collect_valid fetchData _ ?_, ?_⟩
      · intro h hh
        exact hx h (List.mem_of_mem_filter hh)
      · exact flatMap_emitted_filter fetchData (NewAwairCollector xs) xs
  · intro g h hg hv
    have hx : ∀ x ∈ xs, (g x).isOk = true → ValidString x = true :=
      fun x hh => hv x (List.mem_append_left _ hh)
    have hy : ∀ x ∈ ys, (g x).isOk = true → ValidString x = true :=
      fun x hh => hv x (List.mem_append_right _ (List.mem_cons_of_mem _ hh))
    have hh : ∀ x ∈ [h], (fetchData x).isOk = true → ValidString x = true := by
      intro x hx1 hok
      have hxh : x = h := by simpa using hx1
      subst hxh
      rw [← hg] at hok
      exact hv x (List.mem_append_right _ (List.mem_cons_self _ _)) hok
    refine ⟨_, _, _, collect_valid g xs hx, collect_valid g ys hy,
      collect_valid fetchData [h] hh, ?_⟩
    rw [collect_valid g _ hv]
    simp only [List.flatMap_append, List.flatMap_cons, List.flatMap_nil,
      List.append_nil, List.append_assoc]
    have h1 : emitted g (NewAwairCollector (xs ++ h :: ys)) h
        = emitted fetchData (NewAwairCollector [h]) h :=
      emitted_congr fetchData g _ h hg
    have h2 : logged g h = logged fetchData h := by
      simp [logged, hg]
    rw [h1, h2]
    rfl
  · intro hx
    refine ⟨_, collect_panics fetchData xs hx, ?_⟩
    have hxy : ∃ h ∈ xs ++ ys, (fetchData h).isOk = true ∧ ValidString h = false := by
      obtain ⟨h, hh, hr⟩ := hx
      exact ⟨h, List.mem_append_left _ hh, hr⟩
    rw [collect_panics fetchData _ hxy, beforePanic_append_of_panic fetchData xs ys hx]
    rfl

/-- C8 (amended), at xs = [h2, h1] and ys = [h1] with h1 healthy and h2 unreachable:
the pass over xs ++ ys emits the 14 instances of h1 twice, and removing h2 from
xs leaves the instances of the pass over xs unchanged. -/
theorem C8_witness_h2_h1_then_h1 :
    ∃ a b, (NewAwairCollector [utf8 "h2", utf8 "h1"]).Collect fetchOnlyH1 = Except.ok a ∧
      (NewAwairCollector [utf8 "h1"]).Collect fetchOnlyH1 = Except.ok b ∧
      a.ch.length = 14 ∧ b.ch.length = 14 ∧
      (NewAwairCollector ([utf8 "h2", utf8 "h1"] ++ [utf8 "h1"])).Collect fetchOnlyH1
        = Except.ok { ch := a.ch ++ b.ch, log := a.log ++ b.log } := by
  obtain ⟨a, b, ha, hb, hab, _⟩ :=
    (C8_collect_append fetchOnlyH1 [utf8 "h2", utf8 "h1"] [utf8 "h1"]).1 (by decide)
  refine ⟨a, b, ha, hb, ?_, ?_, hab⟩
  · have : (NewAwairCollector [utf8 "h2", utf8 "h1"]).Collect fetchOnlyH1
        = Except.ok { ch := hostMetrics (NewAwairCollector []) (utf8 "h1") sampleReading
                      log := [(utf8 "h2", "unreachable")] } := rfl
    rw [this] at ha
    cases ha
    rfl
  · have : (NewAwairCollector [utf8 "h1"]).Collect fetchOnlyH1
        = Except.ok { ch := hostMetrics (NewAwairCollector []) (utf8 "h1") sampleReading
                      log := [] } := rfl
    rw [this] at hb
    cases hb
    rfl

/-- C10 (as stated, refuted): the host h\xff is listed twice and its fetch succeeds,
yet the pass emits nothing (it panics at the first entry): the emitted instances
are pairwise distinct although a succeeding host occurs twice, and the host
contributes 0 instances, not 28. -/
theorem C10_counterexample_duplicate_non_utf8_host :
    (fetchAll badHost).isOk = true ∧ [badHost, badHost].count badHost = 2 ∧
      ∃ out, (NewAwairCollector [badHost, badHost]).Collect fetchAll = Except.error out ∧
        out.ch.length = 0 ∧ (out.ch.map fun m => (m.desc.fqName, m.labelPairs)).Nodup :=
  ⟨rfl, by decide, _, rfl, rfl, List.nodup_nil⟩

/-- C10 (amended): Collect does not deduplicate hosts.  For every host list in which
every entry whose fetch succeeds is valid UTF-8, with a fixed fetch outcome per
host the pass runs to its end, the emitted instances are pairwise distinct in
(metric name, device label) exactly when no host whose fetch succeeds is listed
more than once, and a host that succeeds and is listed k times contributes 14 * k
instances, k of them for each metric name, all with the same device label. -/
theorem C10_collect_does_not_deduplicate {V T E : Type}
    (fetchData : GoString → Except E (AwairData V T)) (hosts : List GoString)
    (hv : ∀ h ∈ hosts, (fetchData h).isOk = true → ValidString h = true) :
    ∃ out, (NewAwairCollector hosts).Collect fetchData = Except.ok out ∧
      ((out.ch.map fun m => (m.desc.fqName, m.labelPairs)).Nodup ↔
        ∀ h, (fetchData h).isOk = true → hosts.count h ≤ 1) ∧
      ∀ h, (fetchData h).isOk = true →
        (out.ch.filter fun m => decide (m.labelPairs = [("device", h)])).length
            = 14 * hosts.count h ∧
          ∀ d ∈ (NewAwairCollector hosts).Describe,
            (out.ch.filter fun m =>
              decide (m.desc.fqName = d.fqName ∧ m.labelPairs = [("device", h)])).length
              = hosts.count h := by
  refine ⟨_, collect_valid fetchData hosts hv, nodup_keys_flatMap fetchData hosts hosts, ?_⟩
  intro h hk
  refine ⟨?_, ?_⟩
  · rw [length_filter_label, if_pos hk]
  · intro d hd
    have hn : d.fqName ∈ metricNames := by
      rw [← describe_names hosts]
      exact List.mem_map_of_mem _ hd
    exact length_filter_name fetchData hosts hosts h d.fqName hn hk

/-- C10 (amended), at the host list [h1, h2, h1] with h1 healthy and h2 unreachable:
h1 is listed twice, so the instances are not pairwise distinct, and h1
contributes 28 instances, 2 of them named awair_score. -/
theorem C10_witness_h1_listed_twice :
    (∀ h ∈ [utf8 "h1", utf8 "h2", utf8 "h1"],
        (fetchOnlyH1 h).isOk = true → ValidString h = true) ∧
      ∃ out, (NewAwairCollector [utf8 "h1", utf8 "h2", utf8 "h1"]).Collect fetchOnlyH1
          = Except.ok out ∧
        ¬ (out.ch.map fun m => (m.desc.fqName, m.labelPairs)).Nodup ∧
        (out.ch.filter fun m => decide (m.labelPairs = [("device", utf8 "h1")])).length = 28 ∧
        (out.ch.filter fun m =>
          decide (m.desc.fqName = "awair_score" ∧
            m.labelPairs = [("device", utf8 "h1")])).length = 2 := by
  refine ⟨by decide, ?_⟩
  obtain ⟨out, hout, hnodup, hcount⟩ :=
    C10_collect_does_not_deduplicate fetchOnlyH1 [utf8 "h1", utf8 "h2", utf8 "h1"] (by decide)
  refine ⟨out, hout, ?_, ?_, ?_⟩
  · rw [hnodup]
    intro h
    have := h (utf8 "h1") rfl
    revert this
    decide
  · rw [(hcount (utf8 "h1") rfl).1]
    decide
  · have := (hcount (utf8 "h1") rfl).2 (NewAwairCollector []).score (by decide)
    rw [show (NewAwairCollector []).score.fqName = "awair_score" from rfl] at this
    rw [this]
    decide

theorem splitChars_ne_nil (sep : Char) (cs : List Char) : splitChars sep cs ≠ [] := by
  induction cs with
  | nil => simp [splitChars]
  | cons c cs ih =>
    unfold splitChars
    split
    · simp
    · split
      · simp
      · simp

theorem intercalate_splitChars (sep : Char) (cs : List Char) :
    [sep].intercalate (splitChars sep cs) = cs := by
  induction cs with
  | nil => simp [splitChars, List.intercalate]
  | cons c cs ih =>
    unfold splitChars
    split
    · rename_i h
      subst h
      cases hs : splitChars c cs with
      | nil => exact absurd hs (splitChars_ne_nil _ _)
      | cons p ps =>
        rw [hs] at ih
        simp only [List.intercalate, List.intersperse, List.flatten] at ih ⊢
        simpa using ih
    · cases hs : splitChars sep cs with
      | nil => exact absurd hs (splitChars_ne_nil _ _)
      | cons p ps =>
        rw [hs] at ih
        cases ps with
        | nil =>
          simp only [List.intercalate, List.intersperse, List.flatten] at ih ⊢
          simpa using ih
        | cons q qs =>
          simp only [List.intercalate, List.intersperse, List.flatten] at ih ⊢
          simpa using ih

theorem length_splitChars (sep : Char) (cs : List Char) :
    (splitChars sep cs).length = cs.count sep + 1 := by
  induction cs with
  | nil => simp [splitChars]
  | cons c cs ih =>
    unfold splitChars
    split
    · rename_i h
      subst h
      simp [ih]
    · rename_i h
      have hb : (c == sep) = false := by simpa using h
      cases hs : splitChars sep cs with
      | nil => exact absurd hs (splitChars_ne_nil _ _)
      | cons p ps =>
        rw [hs] at ih
        simp only [List.length_cons] at ih ⊢
        rw [List.count_cons, hb]
        simpa using ih

theorem data_intercalate_go (acc sep : String) (l : List String) :
    (String.intercalate.go acc sep l).data
      = acc.data ++ (l.flatMap fun a => sep.data ++ a.data) := by
  induction l generalizing acc with
  | nil => simp [String.intercalate.go]
  | cons a t ih => simp [String.intercalate.go, ih, List.append_assoc]

theorem flatMap_sep_eq (sep : List Char) (p : List Char) (ps : List (List Char)) :
    p ++ (ps.flatMap fun a => sep ++ a) = sep.intercalate (p :: ps) := by
  induction ps generalizing p with
  | nil => simp [List.intercalate]
  | cons q qs ih =>
    have := ih q
    simp only [List.intercalate, List.intersperse, List.flatten, List.flatMap_cons] at this ⊢
    rw [List.append_assoc, this]

theorem data_intercalate (sep : String) (l : List (List Char)) :
    (String.intercalate sep (l.map String.mk)).data = sep.data.intercalate l := by
  cases l with
  | nil => simp [String.intercalate, List.intercalate]
  | cons p ps =>
    simp only [List.map_cons, String.intercalate, data_intercalate_go]
    rw [← flatMap_sep_eq]
    simp [List.flatMap_map]

theorem intercalate_Split (s : String) : String.intercalate "," (Split s ',') = s := by
  apply String.ext
  rw [Split, data_intercalate]
  exact intercalate_splitChars ',' s.data

theorem length_Split (s : String) : (Split s ',').length = s.data.count ',' + 1 := by
  simp [Split, length_splitChars]

theorem Split_ne_nil (s : String) : Split s ',' ≠ [] := by
  intro h
  have := length_Split s
  rw [h] at this
  simp at this

theorem digit_le_nine (c : Char) (h : c.isDigit = true) : c.toNat - '0'.toNat ≤ 9 := by
  simp only [Char.isDigit, Bool.and_eq_true, decide_eq_true_eq] at h
  have h2 : c.val.toNat ≤ 57 := h.2
  have : c.toNat = c.val.toNat := rfl
  have h0 : '0'.toNat = 48 := rfl
  omega

theorem parseUintLoop_ok (ds : List Char) (n : Nat) (hd : ds.all Char.isDigit = true)
    (hr : n * 10 ^ ds.length + decimalNat ds < 2 ^ 64) :
    parseUintLoop ds n = Except.ok (n * 10 ^ ds.length + decimalNat ds) := by
  induction ds generalizing n with
  | nil => simp [parseUintLoop, decimalNat]
  | cons c cs ih =>
    simp only [List.all_cons, Bool.and_eq_true] at hd
    have h0 : '0'.toNat = 48 := rfl
    have hpos : 0 < 10 ^ cs.length := Nat.pow_pos (by norm_num)
    have hval : n * 10 ^ (c :: cs).length + decimalNat (c :: cs)
        = (n * 10 + (c.toNat - 48)) * 10 ^ cs.length + decimalNat cs := by
      simp only [List.length_cons, decimalNat, pow_succ]
      ring
    rw [hval] at hr ⊢
    have hn1 : n * 10 + (c.toNat - 48) < 2 ^ 64 := by
      calc n * 10 + (c.toNat - 48) ≤ (n * 10 + (c.toNat - 48)) * 10 ^ cs.length :=
            Nat.le_mul_of_pos_right _ hpos
        _ ≤ (n * 10 + (c.toNat - 48)) * 10 ^ cs.length + decimalNat cs := Nat.le_add_right _ _
        _ < 2 ^ 64 := hr
    unfold parseUintLoop
    simp only [hd.1, Bool.not_true, Bool.false_eq_true, if_false, h0]
    rw [if_neg (by omega), if_neg (by omega)]
    exact ih _ hd.2 hr

theorem parseUintLoop_inv (ds : List Char) (n v : Nat)
    (h : parseUintLoop ds n = Except.ok v) :
    ds.all Char.isDigit = true ∧ v = n * 10 ^ ds.length + decimalNat ds := by
  induction ds generalizing n with
  | nil =>
    simp only [parseUintLoop, Except.ok.injEq] at h
    simp [decimalNat, h]
  | cons c cs ih =>
    unfold parseUintLoop at h
    have h0 : '0'.toNat = 48 := rfl
    split at h
    · cases h
    · rename_i hc
      split at h
      · cases h
      · simp only at h
        split at h
        · cases h
        · obtain ⟨ha, hv⟩ := ih _ h
          have hc1 : c.isDigit = true := by simpa using hc
          refine ⟨by rw [List.all_cons, hc1, ha]; rfl, ?_⟩
          rw [hv, h0]
          simp only [List.length_cons, decimalNat, pow_succ]
          ring

theorem parseUintLoop_not_digits (ds : List Char) (n : Nat)
    (hd : ds.all Char.isDigit = false) : ∃ e, parseUintLoop ds n = Except.error e := by
  cases h : parseUintLoop ds n with
  | error e => exact ⟨e, rfl⟩
  | ok v =>
    have := (parseUintLoop_inv ds n v h).1
    rw [this] at hd
    cases hd

theorem parseSigned_ok_iff (neg : Bool) (ds : List Char) (v : Int) :
    parseSigned neg ds = Except.ok v ↔
      signedDecimal neg ds = some v ∧ -2 ^ 63 ≤ v ∧ v < 2 ^ 63 := by
  unfold parseSigned signedDecimal ParseUint
  cases ds with
  | nil => simp
  | cons c cs =>
    simp only [ne_eq, reduceCtorEq, not_false_eq_true, true_and]
    cases hl : parseUintLoop (c :: cs) 0 with
    | error e =>
      simp only [reduceCtorEq, false_iff]
      intro hcon
      split at hcon
      · rename_i hd
        have hv := hcon.1
        have hb := hcon.2
        simp only [Option.some.injEq] at hv
        have hlt : 0 * 10 ^ (c :: cs).length + decimalNat (c :: cs) < 2 ^ 64 := by
          cases neg <;> simp at hv <;> omega
        rw [parseUintLoop_ok _ _ hd hlt] at hl
        cases hl
      · simp at hcon
    | ok un =>
      obtain ⟨hd, hv⟩ := parseUintLoop_inv _ _ _ hl
      simp only [zero_mul, zero_add] at hv
      rw [if_pos hd, ← hv]
      cases neg
      · simp only [Bool.not_false, Bool.true_and, decide_eq_true_eq, Bool.false_and,
          Bool.false_eq_true, if_false, Option.some.injEq]
        split
        · simp only [reduceCtorEq, false_iff]
          rintro ⟨h1, h2, h3⟩
          omega
        · simp only [Except.ok.injEq]
          constructor
          · intro h
            omega
          · intro h
            exact h.1
      · simp only [Bool.not_true, Bool.false_and, Bool.false_eq_true, if_false, Bool.true_and,
          decide_eq_true_eq, if_true, Option.some.injEq]
        split
        · simp only [reduceCtorEq, false_iff]
          rintro ⟨h1, h2, h3⟩
          omega
        · simp only [Except.ok.injEq]
          constructor
          · intro h
            omega
          · intro h
            exact h.1

theorem Atoi_ok_iff (s : String) (v : Int) :
    Atoi s = Except.ok v ↔ decimalInteger s = some v ∧ -2 ^ 63 ≤ v ∧ v < 2 ^ 63 := by
  unfold Atoi decimalInteger
  cases s.data with
  | nil => simp
  | cons c cs =>
    simp only
    by_cases hp : c = '+'
    · subst hp
      simp [parseSigned_ok_iff]
    · by_cases hm : c = '-'
      · subst hm
        simp [parseSigned_ok_iff]
      · simp [hp, hm, parseSigned_ok_iff]

theorem Atoi_error_iff (s : String) :
    (∃ e, Atoi s = Except.error e) ↔
      ∀ v, decimalInteger s = some v → ¬ (-2 ^ 63 ≤ v ∧ v < 2 ^ 63) := by
  constructor
  · rintro ⟨e, he⟩ v hv hb
    have := (Atoi_ok_iff s v).mpr ⟨hv, hb.1, hb.2⟩
    rw [he] at this
    cases this
  · intro h
    cases ha : Atoi s with
    | error e => exact ⟨e, rfl⟩
    | ok v =>
      obtain ⟨h1, h2, h3⟩ := (Atoi_ok_iff s v).mp ha
      exact absurd ⟨h2, h3⟩ (h v h1)

/-- The port loadConfig resolves when it gets past the port override: the value of
LISTEN_PORT when that is not empty, otherwise the port of the file, otherwise
9101. -/
theorem loadConfig_of_loads (file : ConfigFile) (env : Environ) (hf : fileLoads file = true) :
    loadConfig file env =
      if Getenv env "LISTEN_PORT" = "" then
        if configuredHosts file env = [] then Loaded.fatal noHostsMessage
        else Loaded.returned
          { Hosts := configuredHosts file env, ListenPort := (filePort file).getD 9101 }
      else
        match Atoi (Getenv env "LISTEN_PORT") with
        | Except.error err => Loaded.failed (LoadError.atoi err)
        | Except.ok port =>
          if configuredHosts file env = [] then Loaded.fatal noHostsMessage
          else Loaded.returned { Hosts := configuredHosts file env, ListenPort := port } := by
  have hload : loadFile file
      = Except.ok { Hosts := fileHosts file, ListenPort := (filePort file).getD 9101 } := by
    cases file with
    | absent => rfl
    | unreadable e => cases hf
    | malformed e => cases hf
    | parsed hs p => cases hs <;> cases p <;> rfl
  unfold loadConfig
  rw [hload]
  simp only [configuredHosts]
  by_cases hh : Getenv env "AWAIR_HOSTS" = "" <;> by_cases hp : Getenv env "LISTEN_PORT" = ""
  · simp [hh, hp]
  · simp only [hh, hp, ne_eq, not_true_eq_false, not_false_eq_true, if_true, if_false]
    cases Atoi (Getenv env "LISTEN_PORT") <;> simp
  · simp [hh, hp]
  · simp only [hh, hp, ne_eq, not_true_eq_false, not_false_eq_true, if_true, if_false]
    cases Atoi (Getenv env "LISTEN_PORT") <;> simp

theorem loadConfig_of_not_loads (file : ConfigFile) (env : Environ)
    (hf : fileLoads file = false) : ∃ err, loadConfig file env = Loaded.failed err := by
  cases file with
  | absent => cases hf
  | unreadable e => exact ⟨_, rfl⟩
  | malformed e => exact ⟨_, rfl⟩
  | parsed hs p => cases hf

theorem returned_loads (file : ConfigFile) (env : Environ) (cfg : Config)
    (h : loadConfig file env = Loaded.returned cfg) : fileLoads file = true := by
  cases hf : fileLoads file with
  | true => rfl
  | false =>
    obtain ⟨e, he⟩ := loadConfig_of_not_loads file env hf
    rw [he] at h
    cases h

/-- What a returned configuration holds: the configured hosts, which are not empty,
and the port of the environment when LISTEN_PORT is not empty, of the file or the
default otherwise. -/
theorem returned_inv (file : ConfigFile) (env : Environ) (cfg : Config)
    (h : loadConfig file env = Loaded.returned cfg) :
    cfg.Hosts = configuredHosts file env ∧ configuredHosts file env ≠ [] ∧
      (Getenv env "LISTEN_PORT" = "" → cfg.ListenPort = (filePort file).getD 9101) ∧
      (Getenv env "LISTEN_PORT" ≠ "" → Atoi (Getenv env "LISTEN_PORT") = Except.ok cfg.ListenPort) := by
  rw [loadConfig_of_loads file env (returned_loads file env cfg h)] at h
  by_cases hp : Getenv env "LISTEN_PORT" = ""
  · rw [if_pos hp] at h
    by_cases hc : configuredHosts file env = []
    · rw [if_pos hc] at h
      cases h
    · rw [if_neg hc] at h
      cases h
      exact ⟨rfl, hc, fun _ => rfl, fun hn => absurd hp hn⟩
  · rw [if_neg hp] at h
    cases ha : Atoi (Getenv env "LISTEN_PORT") with
    | error e =>
      rw [ha] at h
      cases h
    | ok port =>
      rw [ha] at h
      by_cases hc : configuredHosts file env = []
      · simp only [hc, if_true] at h
        cases h
      · simp only [hc, if_false] at h
        cases h
        exact ⟨rfl, hc, fun hn => absurd hn hp, fun _ => rfl⟩

theorem Getenv_of_some (env : Environ) (key s : String) (h : env key = some s) :
    Getenv env key = s := by
  simp [Getenv, h]

/-- C3 (as stated, refuted): with file hosts [a, b] and AWAIR_HOSTS set to the empty
string, loadConfig returns the file hosts [a, b], not the entries of AWAIR_HOSTS
(the split of the empty string is the single empty entry). -/
theorem C3_counterexample_set_but_empty :
    environ [("AWAIR_HOSTS", "")] "AWAIR_HOSTS" = some "" ∧
      loadConfig fileAB (environ [("AWAIR_HOSTS", "")])
        = Loaded.returned { Hosts := ["a", "b"], ListenPort := 9101 } ∧
      Split "" ',' = [""] := by
  decide

/-- C3 (amended): when AWAIR_HOSTS is set to a non-empty value s, every configuration
loadConfig returns has exactly the comma-separated entries of s as its hosts, in
order, so a file-provided host is in it only if it is an entry of s; and
loadConfig does return such a configuration whenever the config file does not
fail to load and LISTEN_PORT is usable.  When AWAIR_HOSTS is set to the empty
string the file-provided hosts are kept: every returned configuration has the
hosts of the file, and one is returned whenever the file loads with a non-empty
host list and LISTEN_PORT is usable. -/
theorem C3_env_hosts_replace_file_hosts (file : ConfigFile) (env : Environ) :
    (∀ s, env "AWAIR_HOSTS" = some s → s ≠ "" →
        (∀ cfg, loadConfig file env = Loaded.returned cfg →
          cfg.Hosts = Split s ',' ∧
          ∀ h ∈ fileHosts file, h ∈ cfg.Hosts → h ∈ Split s ',') ∧
        (fileLoads file = true → portUsable env →
          ∃ port, loadConfig file env
            = Loaded.returned { Hosts := Split s ',', ListenPort := port })) ∧
      (env "AWAIR_HOSTS" = some "" →
        (∀ cfg, loadConfig file env = Loaded.returned cfg → cfg.Hosts = fileHosts file) ∧
        (fileLoads file = true → portUsable env → fileHosts file ≠ [] →
          ∃ port, loadConfig file env
            = Loaded.returned { Hosts := fileHosts file, ListenPort := port })) := by
  have hret : ∀ hosts, configuredHosts file env = hosts → hosts ≠ [] →
      fileLoads file = true → portUsable env →
      ∃ port, loadConfig file env = Loaded.returned { Hosts := hosts, ListenPort := port } := by
    intro hosts hc hne hf hp
    rw [loadConfig_of_loads file env hf, hc]
    rcases hp with hp | ⟨v, hv, h1, h2⟩
    · exact ⟨(filePort file).getD 9101, by simp [hp, hne]⟩
    · by_cases he : Getenv env "LISTEN_PORT" = ""
      · exact ⟨(filePort file).getD 9101, by simp [he, hne]⟩
      · refine ⟨v, ?_⟩
        rw [if_neg he, (Atoi_ok_iff _ v).mpr ⟨hv, h1, h2⟩]
        simp [hne]
  constructor
  · intro s hs hne
    have hg : Getenv env "AWAIR_HOSTS" = s := Getenv_of_some env _ s hs
    have hc : configuredHosts file env = Split s ',' := by
      simp [configuredHosts, hg, hne]
    constructor
    · intro cfg hcfg
      have := (returned_inv file env cfg hcfg).1
      rw [hc] at this
      exact ⟨this, fun h _ hm => this ▸ hm⟩
    · intro hf hp
      exact hret _ hc (Split_ne_nil s) hf hp
  · intro hs
    have hg : Getenv env "AWAIR_HOSTS" = "" := Getenv_of_some env _ _ hs
    have hc : configuredHosts file env = fileHosts file := by
      simp [configuredHosts, hg]
    constructor
    · intro cfg hcfg
      rw [(returned_inv file env cfg hcfg).1, hc]
    · intro hf hp hne
      exact hret _ hc hne hf hp

/-- C3 (amended), at file hosts [a, b] and AWAIR_HOSTS=c,d: the resolved hosts are
[c, d]. -/
theorem C3_witness_file_ab_env_cd :
    (environ [("AWAIR_HOSTS", "c,d")] "AWAIR_HOSTS" = some "c,d" ∧ "c,d" ≠ "") ∧
      Split "c,d" ',' = ["c", "d"] ∧
      ((∀ cfg, loadConfig fileAB (environ [("AWAIR_HOSTS", "c,d")]) = Loaded.returned cfg →
          cfg.Hosts = Split "c,d" ',' ∧
          ∀ h ∈ fileHosts fileAB, h ∈ cfg.Hosts → h ∈ Split "c,d" ',') ∧
        (fileLoads fileAB = true → portUsable (environ [("AWAIR_HOSTS", "c,d")]) →
          ∃ port, loadConfig fileAB (environ [("AWAIR_HOSTS", "c,d")])
            = Loaded.returned { Hosts := Split "c,d" ',', ListenPort := port })) :=
  ⟨⟨by decide, by decide⟩, by decide,
    (C3_env_hosts_replace_file_hosts fileAB (environ [("AWAIR_HOSTS", "c,d")])).1 "c,d"
      (by decide) (by decide)⟩

/-- C4 (as stated, refuted): with AWAIR_HOSTS=a the configured host list is [a], not
empty, and with LISTEN_PORT=x loadConfig does not succeed: it returns the error
of strconv.Atoi. -/
theorem C4_counterexample_bad_port :
    configuredHosts ConfigFile.absent (environ [("AWAIR_HOSTS", "a"), ("LISTEN_PORT", "x")])
        = ["a"] ∧
      loadConfig ConfigFile.absent (environ [("AWAIR_HOSTS", "a"), ("LISTEN_PORT", "x")])
        = Loaded.failed (LoadError.atoi NumError.ErrSyntax) := by
  decide

/-- C4 (amended): when the config file does not fail to load and LISTEN_PORT is
usable, a non-empty configured host list makes loadConfig return a configuration
carrying that list, and an empty one makes it end in the fatal no-hosts check;
and for every input whose configured host list is empty, loadConfig returns no
configuration and startup ends fatally. -/
theorem C4_nonempty_hosts_returned_empty_hosts_fatal (file : ConfigFile) (env : Environ) :
    (fileLoads file = true → portUsable env →
        (configuredHosts file env ≠ [] →
          ∃ port, loadConfig file env
            = Loaded.returned { Hosts := configuredHosts file env, ListenPort := port }) ∧
        (configuredHosts file env = [] → loadConfig file env = Loaded.fatal noHostsMessage)) ∧
      (configuredHosts file env = [] →
        (∀ cfg, loadConfig file env ≠ Loaded.returned cfg) ∧ (main file env).isFatal = true) := by
  constructor
  · intro hf hp
    rw [loadConfig_of_loads file env hf]
    rcases hp with hp | ⟨v, hv, h1, h2⟩
    · constructor
      · intro hc
        exact ⟨(filePort file).getD 9101, by simp [hp, hc]⟩
      · intro hc
        simp [hp, hc]
    · by_cases he : Getenv env "LISTEN_PORT" = ""
      · constructor
        · intro hc
          exact ⟨(filePort file).getD 9101, by simp [he, hc]⟩
        · intro hc
          simp [he, hc]
      · rw [if_neg he, (Atoi_ok_iff _ v).mpr ⟨hv, h1, h2⟩]
        constructor
        · intro hc
          exact ⟨v, by simp [hc]⟩
        · intro hc
          simp [hc]
  · intro hc
    have hno : ∀ cfg, loadConfig file env ≠ Loaded.returned cfg := by
      intro cfg h
      exact (returned_inv file env cfg h).2.1 hc
    refine ⟨hno, ?_⟩
    unfold main
    cases hl : loadConfig file env with
    | returned cfg => exact absurd hl (hno cfg)
    | failed err => rfl
    | fatal msg => rfl

/-- C6 (as stated, refuted): LISTEN_PORT set to the empty string, which is not an
integer, gives no error (the port stays 9101); and LISTEN_PORT set to the decimal
integer string 9223372036854775808 does not resolve to that integer, loadConfig
returns the range error of strconv.Atoi. -/
theorem C6_counterexample_empty_and_out_of_range :
    (environ [("AWAIR_HOSTS", "a"), ("LISTEN_PORT", "")] "LISTEN_PORT" = some "" ∧
        decimalInteger "" = none ∧
        loadConfig ConfigFile.absent (environ [("AWAIR_HOSTS", "a"), ("LISTEN_PORT", "")])
          = Loaded.returned { Hosts := ["a"], ListenPort := 9101 }) ∧
      (decimalInteger "9223372036854775808" = some 9223372036854775808 ∧
        loadConfig ConfigFile.absent
            (environ [("AWAIR_HOSTS", "a"), ("LISTEN_PORT", "9223372036854775808")])
          = Loaded.failed (LoadError.atoi NumError.ErrRange)) := by
  decide

/-- C6 (amended): the listen port is decided by precedence environment over file over
default.  When LISTEN_PORT is set to a decimal integer string whose value fits a
signed 64-bit integer, every returned configuration has that integer as its port,
whatever the config file says (and one is returned when the file loads and the
host list is not empty); when LISTEN_PORT is unset or empty, the port is the
listen_port of the file if the file provides one and 9101 otherwise; and when
LISTEN_PORT is set to a non-empty string that is not a decimal integer in that
range, loadConfig returns an error, fatal at startup, for every host list and
file content. -/
theorem C6_listen_port_precedence (file : ConfigFile) (env : Environ) :
    (∀ s v, env "LISTEN_PORT" = some s → decimalInteger s = some v →
        -2 ^ 63 ≤ v → v < 2 ^ 63 →
        (∀ cfg, loadConfig file env = Loaded.returned cfg → cfg.ListenPort = v) ∧
        (fileLoads file = true → configuredHosts file env ≠ [] →
          loadConfig file env
            = Loaded.returned { Hosts := configuredHosts file env, ListenPort := v })) ∧
      (Getenv env "LISTEN_PORT" = "" →
        (∀ cfg, loadConfig file env = Loaded.returned cfg →
          cfg.ListenPort = (filePort file).getD 9101) ∧
        (fileLoads file = true → configuredHosts file env ≠ [] →
          loadConfig file env
            = Loaded.returned
                { Hosts := configuredHosts file env, ListenPort := (filePort file).getD 9101 })) ∧
      (∀ s, env "LISTEN_PORT" = some s → s ≠ "" →
        (∀ v, decimalInteger s = some v → ¬ (-2 ^ 63 ≤ v ∧ v < 2 ^ 63)) →
        (∃ err, loadConfig file env = Loaded.failed err) ∧ (main file env).isFatal = true) := by
  refine ⟨?_, ?_, ?_⟩
  · intro s v hs hv h1 h2
    have hg : Getenv env "LISTEN_PORT" = s := Getenv_of_some env _ s hs
    have hne : s ≠ "" := by
      rintro rfl
      simp [decimalInteger] at hv
    have ha : Atoi s = Except.ok v := (Atoi_ok_iff s v).mpr ⟨hv, h1, h2⟩
    constructor
    · intro cfg hcfg
      have := (returned_inv file env cfg hcfg).2.2.2 (by rw [hg]; exact hne)
      rw [hg, ha] at this
      cases this
      rfl
    · intro hf hc
      rw [loadConfig_of_loads file env hf, hg, if_neg hne, ha]
      simp [hc]
  · intro hp
    constructor
    · intro cfg hcfg
      exact (returned_inv file env cfg hcfg).2.2.1 hp
    · intro hf hc
      rw [loadConfig_of_loads file env hf, if_pos hp, if_neg hc]
  · intro s hs hne hbad
    have hg : Getenv env "LISTEN_PORT" = s := Getenv_of_some env _ s hs
    obtain ⟨e, he⟩ := (Atoi_error_iff s).mpr hbad
    have hfail : ∃ err, loadConfig file env = Loaded.failed err := by
      cases hf : fileLoads file with
      | false => exact loadConfig_of_not_loads file env hf
      | true =>
        rw [loadConfig_of_loads file env hf, hg, if_neg hne, he]
        exact ⟨_, rfl⟩
    refine ⟨hfail, ?_⟩
    obtain ⟨err, herr⟩ := hfail
    simp [main, herr, Startup.isFatal]

/-- C9: for every non-empty AWAIR_HOSTS value s, the hosts of every configuration
loadConfig returns are s split on the comma, untrimmed and with the empty entries
kept: joining them with a comma gives back s, there is one more entry than s has
commas, the list is not empty, and the fatal no-hosts check never fires (a
configuration is returned whenever the file loads and LISTEN_PORT is usable).
When AWAIR_HOSTS is the empty string loadConfig behaves as if it were unset and
the hosts of a returned configuration are those of the file. -/
theorem C9_hosts_split_untrimmed (file : ConfigFile) (env : Environ) :
    (∀ s, env "AWAIR_HOSTS" = some s → s ≠ "" →
        (∀ cfg, loadConfig file env = Loaded.returned cfg →
          cfg.Hosts = Split s ',' ∧ String.intercalate "," cfg.Hosts = s ∧
            cfg.Hosts.length = s.data.count ',' + 1 ∧ cfg.Hosts ≠ []) ∧
        (∀ msg, loadConfig file env ≠ Loaded.fatal msg) ∧
        (fileLoads file = true → portUsable env →
          ∃ port, loadConfig file env
            = Loaded.returned { Hosts := Split s ',', ListenPort := port })) ∧
      (env "AWAIR_HOSTS" = some "" →
        loadConfig file env = loadConfig file (Function.update env "AWAIR_HOSTS" none) ∧
        ∀ cfg, loadConfig file env = Loaded.returned cfg → cfg.Hosts = fileHosts file) := by
  constructor
  · intro s hs hne
    have hg : Getenv env "AWAIR_HOSTS" = s := Getenv_of_some env _ s hs
    have hc : configuredHosts file env = Split s ',' := by
      simp [configuredHosts, hg, hne]
    refine ⟨?_, ?_, ?_⟩
    · intro cfg hcfg
      have := (returned_inv file env cfg hcfg).1
      rw [hc] at this
      rw [this]
      exact ⟨rfl, intercalate_Split s, length_Split s, Split_ne_nil s⟩
    · intro msg hmsg
      cases hf : fileLoads file with
      | false =>
        obtain ⟨e, he⟩ := loadConfig_of_not_loads file env hf
        rw [he] at hmsg
        cases hmsg
      | true =>
        rw [loadConfig_of_loads file env hf, hc] at hmsg
        by_cases hp : Getenv env "LISTEN_PORT" = ""
        · simp [hp, Split_ne_nil] at hmsg
        · rw [if_neg hp] at hmsg
          cases ha : Atoi (Getenv env "LISTEN_PORT") with
          | error e => simp [ha] at hmsg
          | ok p => simp [ha, Split_ne_nil] at hmsg
    · intro hf hp
      rw [loadConfig_of_loads file env hf, hc]
      rcases hp with hp | ⟨v, hv, h1, h2⟩
      · exact ⟨(filePort file).getD 9101, by simp [hp, Split_ne_nil]⟩
      · by_cases he : Getenv env "LISTEN_PORT" = ""
        · exact ⟨(filePort file).getD 9101, by simp [he, Split_ne_nil]⟩
        · refine ⟨v, ?_⟩
          rw [if_neg he, (Atoi_ok_iff _ v).mpr ⟨hv, h1, h2⟩]
          simp [Split_ne_nil]
  · intro hs
    have hg : Getenv env "AWAIR_HOSTS" = "" := Getenv_of_some env _ _ hs
    constructor
    · have h1 : Getenv (Function.update env "AWAIR_HOSTS" none) "AWAIR_HOSTS" = "" := by
        simp [Getenv]
      have h2 : Getenv (Function.update env "AWAIR_HOSTS" none) "LISTEN_PORT"
          = Getenv env "LISTEN_PORT" := by
        simp [Getenv, Function.update]
      unfold loadConfig
      rw [hg, h1, h2]
    · intro cfg hcfg
      have := (returned_inv file env cfg hcfg).1
      rw [this]
      simp [configuredHosts, hg]

/-- C9 at AWAIR_HOSTS set to a single comma, no config file, no LISTEN_PORT: the
comma resolves to two empty host names and loadConfig succeeds. -/
theorem C9_witness_single_comma :
    loadConfig ConfigFile.absent (environ [("AWAIR_HOSTS", ",")])
        = Loaded.returned { Hosts := ["", ""], ListenPort := 9101 } ∧
      ∀ msg, loadConfig ConfigFile.absent (environ [("AWAIR_HOSTS", ",")]) ≠ Loaded.fatal msg :=
  ⟨by decide,
    ((C9_hosts_split_untrimmed ConfigFile.absent (environ [("AWAIR_HOSTS", ",")])).1 ","
      (by decide) (by decide)).2.1⟩

theorem storeMember_accepted {V T : Type} (rt : Runtime V T) (d : decodeState V T)
    (m : String × JSON) (h : memberAccepted rt m = true) :
    ∃ d1, storeMember rt d m = Except.ok d1 ∧ d1.savedError = d.savedError := by
  unfold memberAccepted at h
  unfold storeMember
  cases hf : fieldOf m.1 with
  | none => exact ⟨d, rfl, rfl⟩
  | some f =>
    rw [hf] at h
    simp only at h ⊢
    cases hv : m.2 with
    | null => cases f <;> exact ⟨d, rfl, rfl⟩
    | bool b => simp [storable, hv] at h
    | number lit =>
      simp only [storable, hv, Bool.and_eq_true, bne_iff_ne, ne_eq] at h
      obtain ⟨x, hx⟩ := Option.isSome_iff_exists.mp h.2
      cases f <;> first
        | exact absurd rfl h.1
        | (simp only [storeField, hx]; exact ⟨_, rfl, rfl⟩)
    | string s =>
      simp only [storable, hv, Bool.and_eq_true, beq_iff_eq] at h
      obtain ⟨x, hx⟩ := Option.isSome_iff_exists.mp h.2
      rw [h.1]
      simp only [storeField, hx]
      exact ⟨_, rfl, rfl⟩
    | array l => simp [storable, hv] at h
    | object l => simp [storable, hv] at h

theorem saveError_ne_none {V T : Type} (d : decodeState V T) (e : DecodeError) :
    (d.saveError e).savedError ≠ none := by
  unfold decodeState.saveError
  cases h : d.savedError with
  | none => simp
  | some e0 => simp [h]

theorem storeMember_rejected {V T : Type} (rt : Runtime V T) (d : decodeState V T)
    (m : String × JSON) (h : memberAccepted rt m = false) :
    ∀ d1, storeMember rt d m = Except.ok d1 → d1.savedError ≠ none := by
  unfold memberAccepted at h
  unfold storeMember
  cases hf : fieldOf m.1 with
  | none => simp [hf] at h
  | some f =>
    rw [hf] at h
    simp only at h ⊢
    intro d1 hd1
    cases hv : m.2 with
    | null => simp [storable, hv] at h
    | bool b =>
      rw [hv] at hd1
      cases f <;> simp only [storeField, reduceCtorEq, Except.ok.injEq] at hd1 <;>
        (rw [← hd1]; exact saveError_ne_none _ _)
    | number lit =>
      rw [hv] at hd1
      simp only [storable, hv, Bool.and_eq_false_iff, bne_eq_false_iff_eq] at h
      cases f <;> simp only [storeField, reduceCtorEq] at hd1 <;>
        (cases hp : rt.ParseFloat lit with
         | some x => simp [hp] at h
         | none =>
           rw [hp] at hd1
           simp only [Except.ok.injEq] at hd1
           rw [← hd1]
           exact saveError_ne_none _ _)
    | string s =>
      rw [hv] at hd1
      simp only [storable, hv, Bool.and_eq_false_iff, beq_eq_false_iff_ne, ne_eq] at h
      cases f <;> simp only [storeField, reduceCtorEq, Except.ok.injEq] at hd1 <;>
        first
        | (rw [← hd1]; exact saveError_ne_none _ _)
        | (cases hp : rt.ParseTime s with
           | some x => simp [hp] at h
           | none => simp [hp] at hd1)
    | array l =>
      rw [hv] at hd1
      cases f <;> simp only [storeField, reduceCtorEq, Except.ok.injEq] at hd1 <;>
        (rw [← hd1]; exact saveError_ne_none _ _)
    | object l =>
      rw [hv] at hd1
      cases f <;> simp only [storeField, reduceCtorEq, Except.ok.injEq] at hd1 <;>
        (rw [← hd1]; exact saveError_ne_none _ _)

theorem foldlM_storeMember_none {V T : Type} (rt : Runtime V T) (ms : List (String × JSON))
    (d : decodeState V T) :
    (∃ d1, ms.foldlM (storeMember rt) d = Except.ok d1 ∧ d1.savedError = none) ↔
      d.savedError = none ∧ ms.all (memberAccepted rt) = true := by
  induction ms generalizing d with
  | nil =>
    simp only [List.foldlM, List.all_nil, and_true]
    constructor
    · rintro ⟨d1, h1, h2⟩
      cases h1
      exact h2
    · intro h
      exact ⟨d, rfl, h⟩
  | cons m t ih =>
    rw [List.foldlM_cons, List.all_cons, Bool.and_eq_true]
    cases hm : memberAccepted rt m with
    | true =>
      obtain ⟨d2, hd2, hs⟩ := storeMember_accepted rt d m hm
      rw [hd2]
      have : (Except.ok d2 >>= fun s => List.foldlM (storeMember rt) s t)
          = List.foldlM (storeMember rt) d2 t := rfl
      rw [this, ih d2, hs]
      simp
    | false =>
      simp only [Bool.false_eq_true, false_and, and_false, iff_false]
      rintro ⟨d1, h1, h2⟩
      cases hs : storeMember rt d m with
      | error e =>
        rw [hs] at h1
        cases h1
      | ok d2 =>
        rw [hs] at h1
        have : (Except.ok d2 >>= fun s => List.foldlM (storeMember rt) s t)
            = List.foldlM (storeMember rt) d2 t := rfl
        rw [this] at h1
        have := (ih d2).mp ⟨d1, h1, h2⟩
        exact storeMember_rejected rt d m hm d2 hs this.1

theorem Decode_isOk {V T : Type} (rt : Runtime V T) (body : Body) :
    (Decode rt body).isOk = accepted rt body := by
  cases body with
  | invalid => rfl
  | value v =>
    cases v with
    | null => rfl
    | bool b => rfl
    | number l => rfl
    | string s => rfl
    | array l => rfl
    | object ms =>
      have key := foldlM_storeMember_none rt ms { data := AwairData.zero rt, savedError := none }
      simp only [true_and] at key
      simp only [Decode, accepted]
      cases hfold : List.foldlM (storeMember rt) { data := AwairData.zero rt, savedError := none } ms with
      | error e =>
        rw [hfold] at key
        have : ¬ (List.all ms (memberAccepted rt) = true) := by
          intro h
          obtain ⟨d1, h1, _⟩ := key.mpr h
          cases h1
        simp only [Bool.not_eq_true] at this
        rw [this]
        rfl
      | ok d1 =>
        rw [hfold] at key
        cases hs : d1.savedError with
        | none =>
          have := key.mp ⟨d1, rfl, hs⟩
          rw [this]
          simp [hs, Except.isOk, Except.toBool]
        | some e =>
          have : ¬ (List.all ms (memberAccepted rt) = true) := by
            intro h
            obtain ⟨d2, h1, h2⟩ := key.mpr h
            cases h1
            rw [hs] at h2
            cases h2
          simp only [Bool.not_eq_true] at this
          rw [this]
          simp [hs, Except.isOk, Except.toBool]

theorem fetchData_isOk {V T N : Type} (rt : Runtime V T) (get : GoString → Except N Body)
    (c : AwairCollector) (host : GoString) (body : Body)
    (hget : get (utf8 "http://" ++ host ++ utf8 "/air-data/latest") = Except.ok body) :
    (c.fetchData rt get host).isOk = accepted rt body := by
  rw [← Decode_isOk]
  simp only [AwairCollector.fetchData, hget]
  cases Decode rt body <;> rfl

theorem setFloat_float?_ne {V T : Type} (data : AwairData V T) (f g : Field) (x : V)
    (h : g ≠ f) : (data.setFloat g x).float? f = data.float? f := by
  cases f <;> cases g <;> first | rfl | exact absurd rfl h

theorem setFloat_Timestamp {V T : Type} (data : AwairData V T) (g : Field) (x : V) :
    (data.setFloat g x).Timestamp = data.Timestamp := by
  cases g <;> rfl

theorem saveError_data {V T : Type} (d : decodeState V T) (e : DecodeError) :
    (d.saveError e).data = d.data := by
  unfold decodeState.saveError
  cases d.savedError <;> rfl

/-- Storing a value in the field g leaves every other field as it was. -/
theorem storeField_other {V T : Type} (rt : Runtime V T) (d d1 : decodeState V T)
    (f g : Field) (v : JSON) (h : storeField rt d g v = Except.ok d1) (hne : g ≠ f) :
    d1.data.float? f = d.data.float? f ∧
      (f = Field.Timestamp → d1.data.Timestamp = d.data.Timestamp) := by
  cases v with
  | null =>
    have : d1 = d := by
      cases g <;> simp only [storeField, Except.ok.injEq] at h <;> exact h.symm
    rw [this]
    exact ⟨rfl, fun _ => rfl⟩
  | bool b =>
    cases g <;> simp only [storeField, reduceCtorEq, Except.ok.injEq] at h <;>
      (rw [← h, saveError_data]; exact ⟨rfl, fun _ => rfl⟩)
  | array l =>
    cases g <;> simp only [storeField, reduceCtorEq, Except.ok.injEq] at h <;>
      (rw [← h, saveError_data]; exact ⟨rfl, fun _ => rfl⟩)
  | object l =>
    cases g <;> simp only [storeField, reduceCtorEq, Except.ok.injEq] at h <;>
      (rw [← h, saveError_data]; exact ⟨rfl, fun _ => rfl⟩)
  | number lit =>
    cases hp : rt.ParseFloat lit with
    | none =>
      cases g <;> simp only [storeField, hp, reduceCtorEq, Except.ok.injEq] at h <;>
        (rw [← h, saveError_data]; exact ⟨rfl, fun _ => rfl⟩)
    | some x =>
      cases g <;> simp only [storeField, hp, reduceCtorEq, Except.ok.injEq] at h <;>
        (rw [← h]; exact ⟨setFloat_float?_ne _ _ _ _ hne, fun _ => setFloat_Timestamp _ _ _⟩)
  | string s =>
    cases g with
    | Timestamp =>
      cases hp : rt.ParseTime s with
      | none => simp [storeField, hp] at h
      | some t =>
        simp only [storeField, hp, Except.ok.injEq] at h
        rw [← h]
        refine ⟨?_, fun hf => absurd hf.symm hne⟩
        cases f <;> rfl
    | Score | DewPoint | Temp | Humid | AbsHumid | CO2 | CO2Est | CO2EstBaseline | VOC
    | VOCBaseline | VOCH2Raw | VOCEthanolRaw | PM25 | PM10Est =>
      simp only [storeField, Except.ok.injEq] at h
      rw [← h, saveError_data]
      exact ⟨rfl, fun _ => rfl⟩

/-- The members of an object whose keys do not name the field f leave f as it
was. -/
theorem foldlM_storeMember_other {V T : Type} (rt : Runtime V T) (f : Field)
    (ms : List (String × JSON)) (d d1 : decodeState V T)
    (h : ms.foldlM (storeMember rt) d = Except.ok d1)
    (hms : ∀ m ∈ ms, fieldOf m.1 ≠ some f) :
    d1.data.float? f = d.data.float? f ∧
      (f = Field.Timestamp → d1.data.Timestamp = d.data.Timestamp) := by
  induction ms generalizing d with
  | nil =>
    simp only [List.foldlM] at h
    cases h
    exact ⟨rfl, fun _ => rfl⟩
  | cons m t ih =>
    rw [List.foldlM_cons] at h
    cases hs : storeMember rt d m with
    | error e =>
      rw [hs] at h
      cases h
    | ok d2 =>
      rw [hs] at h
      have hstep : d2.data.float? f = d.data.float? f ∧
          (f = Field.Timestamp → d2.data.Timestamp = d.data.Timestamp) := by
        unfold storeMember at hs
        cases hf : fieldOf m.1 with
        | none =>
          rw [hf] at hs
          cases hs
          exact ⟨rfl, fun _ => rfl⟩
        | some g =>
          rw [hf] at hs
          have hne : g ≠ f := by
            intro hgf
            exact hms m (List.mem_cons_self _ _) (by rw [hf, hgf])
          exact storeField_other rt d d2 f g m.2 hs hne
      have hrest := ih d2 h (fun m' hm' => hms m' (List.mem_cons_of_mem _ hm'))
      exact ⟨hrest.1.trans hstep.1, fun hf => (hrest.2 hf).trans (hstep.2 hf)⟩

/-- A member whose key names no field changes nothing, wherever it stands in the
object. -/
theorem foldlM_storeMember_unknown {V T : Type} (rt : Runtime V T)
    (ms1 ms2 : List (String × JSON)) (k : String) (v : JSON) (d : decodeState V T)
    (hk : fieldOf k = none) :
    (ms1 ++ (k, v) :: ms2).foldlM (storeMember rt) d
      = (ms1 ++ ms2).foldlM (storeMember rt) d := by
  rw [List.foldlM_append, List.foldlM_append]
  congr 1
  funext d1
  rw [List.foldlM_cons]
  have : storeMember rt d1 (k, v) = Except.ok d1 := by
    simp [storeMember, hk]
  rw [this]
  rfl

/-- C5 (as stated, refuted): a device that answers the empty JSON object, which has
none of the fifteen fields, makes fetchData return the all-zero reading, not an
error, and Collect emits the fourteen metrics of the host with the value 0; and
an object with a single known field and an unknown extra field is decoded as
well, the missing fields staying zero and the unknown field being ignored. -/
theorem C5_counterexample_empty_object :
    (NewAwairCollector [utf8 "h"]).fetchData sampleRuntime getEmptyObject (utf8 "h")
        = Except.ok (AwairData.zero sampleRuntime) ∧
      (∃ out, (NewAwairCollector [utf8 "h"]).Collect
            ((NewAwairCollector [utf8 "h"]).fetchData sampleRuntime getEmptyObject)
          = Except.ok out ∧
        (out.ch.map fun m => (m.desc.fqName, m.val, m.labelPairs))
          = metricNames.map fun n => (n, (0 : Int), [("device", utf8 "h")])) ∧
      (NewAwairCollector [utf8 "h"]).fetchData sampleRuntime getScoreAndExtra (utf8 "h")
        = Except.ok { AwairData.zero sampleRuntime with Score := 85 } :=
  ⟨rfl, ⟨_, rfl, by decide⟩, rfl⟩

/-- C5 (amended): for every host and every response body, fetchData returns an error
exactly when the decoder does not accept the body: the body is not decodable
JSON, its value is neither an object nor null, or it is an object in which a
member whose key names a reading field carries a value that cannot be stored in
that field.  In that case a Collect pass, whether it runs to its end or panics,
emits no metric labeled with the host, and a pass that runs to its end logs the
error for it.  A body with fields missing or with unknown extra fields, the empty
object included, is accepted when its other members are: fetchData returns the
decoded reading, in which every field that no member names has its zero value and
which is the same with and without a member whose key names no field; and when
every listed host whose fetch succeeds is valid UTF-8, Collect emits the fourteen
metrics of the host for each time the host is listed. -/
theorem C5_fetch_fails_exactly_on_rejected_bodies {V T N : Type} (rt : Runtime V T)
    (get : GoString → Except N Body) (hosts : List GoString) (host : GoString) (body : Body)
    (hget : get (utf8 "http://" ++ host ++ utf8 "/air-data/latest") = Except.ok body) :
    ((NewAwairCollector hosts).fetchData rt get host).isOk = accepted rt body ∧
      (accepted rt body = false →
        ∃ err, Decode rt body = Except.error err ∧
          (NewAwairCollector hosts).fetchData rt get host
            = Except.error (FetchError.decode err) ∧
          (∀ out,
            ((NewAwairCollector hosts).Collect ((NewAwairCollector hosts).fetchData rt get)
                = Except.ok out ∨
              (NewAwairCollector hosts).Collect ((NewAwairCollector hosts).fetchData rt get)
                = Except.error out) →
            ∀ m ∈ out.ch, m.labelPairs ≠ [("device", host)]) ∧
          (∀ out,
            (NewAwairCollector hosts).Collect ((NewAwairCollector hosts).fetchData rt get)
              = Except.ok out →
            host ∈ hosts → (host, FetchError.decode err) ∈ out.log)) ∧
      (accepted rt body = true →
        ∃ data, Decode rt body = Except.ok data ∧
          (NewAwairCollector hosts).fetchData rt get host = Except.ok data ∧
          ((∀ h ∈ hosts, ((NewAwairCollector hosts).fetchData rt get h).isOk = true →
              ValidString h = true) →
            ∃ out,
              (NewAwairCollector hosts).Collect ((NewAwairCollector hosts).fetchData rt get)
                = Except.ok out ∧
              (out.ch.filter fun m => decide (m.labelPairs = [("device", host)])).length
                = 14 * hosts.count host)) ∧
      (∀ ms data, body = Body.value (JSON.object ms) → Decode rt body = Except.ok data →
        ∀ f, (∀ m ∈ ms, fieldOf m.1 ≠ some f) →
          data.float? f = (AwairData.zero rt).float? f ∧
            (f = Field.Timestamp → data.Timestamp = rt.zeroTime)) ∧
      (∀ ms1 ms2 k v, fieldOf k = none →
        Decode rt (Body.value (JSON.object (ms1 ++ (k, v) :: ms2)))
          = Decode rt (Body.value (JSON.object (ms1 ++ ms2)))) := by
  have hisOk := fetchData_isOk rt get (NewAwairCollector hosts) host body hget
  refine ⟨hisOk, ?_, ?_, ?_, ?_⟩
  · intro hacc
    have hd := Decode_isOk rt body
    rw [hacc] at hd hisOk
    cases hdec : Decode rt body with
    | ok data => simp [hdec, Except.isOk, Except.toBool] at hd
    | error err =>
      have hfetch : (NewAwairCollector hosts).fetchData rt get host
          = Except.error (FetchError.decode err) := by
        simp only [AwairCollector.fetchData, hget, hdec]
      have hnone : ∀ (l : List GoString),
          ∀ m ∈ l.flatMap (emitted ((NewAwairCollector hosts).fetchData rt get)
              (NewAwairCollector hosts)),
            m.labelPairs ≠ [("device", host)] := by
        intro l m hm hl
        obtain ⟨h, _, hok, hl2⟩ := mem_flatMap_emitted _ _ l m hm
        rw [hl] at hl2
        have hh : host = h := by simpa using hl2
        subst hh
        rw [hisOk] at hok
        cases hok
      refine ⟨err, rfl, hfetch, ?_, ?_⟩
      · intro out hout m hm
        rw [collect_new] at hout
        split at hout
        · rcases hout with h | h
          · cases h
            exact hnone _ m hm
          · cases h
        · rcases hout with h | h
          · cases h
          · cases h
            exact hnone _ m hm
      · intro out hout hmem
        rw [collect_new] at hout
        split at hout
        · cases hout
          exact List.mem_flatMap.mpr ⟨host, hmem, by simp [logged, hfetch]⟩
        · cases hout
  · intro hacc
    have hd := Decode_isOk rt body
    rw [hacc] at hd hisOk
    cases hdec : Decode rt body with
    | error err => simp [hdec, Except.isOk, Except.toBool] at hd
    | ok data =>
      have hfetch : (NewAwairCollector hosts).fetchData rt get host = Except.ok data := by
        simp only [AwairCollector.fetchData, hget, hdec]
      refine ⟨data, rfl, hfetch, ?_⟩
      intro hv
      refine ⟨_, collect_valid _ hosts hv, ?_⟩
      rw [length_filter_label, if_pos hisOk]
  · intro ms data hb hdec f hms
    subst hb
    simp only [Decode] at hdec
    cases hfold : List.foldlM (storeMember rt)
        { data := AwairData.zero rt, savedError := none } ms with
    | error e =>
      rw [hfold] at hdec
      cases hdec
    | ok d1 =>
      rw [hfold] at hdec
      have := foldlM_storeMember_other rt f ms _ d1 hfold hms
      cases hs : d1.savedError with
      | some e =>
        simp only [hs] at hdec
        cases hdec
      | none =>
        simp only [hs, Except.ok.injEq] at hdec
        rw [← hdec]
        exact this
  · intro ms1 ms2 k v hk
    simp only [Decode, foldlM_storeMember_unknown rt ms1 ms2 k v _ hk]

/-- C5 (amended), at a device whose body is not JSON: the body is rejected, fetchData
returns the decoder's error, and no pass emits a metric for the host. -/
theorem C5_witness_invalid_body :
    getInvalid (utf8 "http://" ++ utf8 "h" ++ utf8 "/air-data/latest") = Except.ok Body.invalid ∧
      accepted sampleRuntime Body.invalid = false ∧
      ∃ err, Decode sampleRuntime Body.invalid = Except.error err ∧
        (NewAwairCollector [utf8 "h"]).fetchData sampleRuntime getInvalid (utf8 "h")
          = Except.error (FetchError.decode err) ∧
        (NewAwairCollector [utf8 "h"]).Collect
            ((NewAwairCollector [utf8 "h"]).fetchData sampleRuntime getInvalid)
          = Except.ok { ch := [], log := [(utf8 "h", FetchError.decode err)] } := by
  obtain ⟨err, hdec, hfetch, _, _⟩ :=
    (C5_fetch_fails_exactly_on_rejected_bodies sampleRuntime getInvalid [utf8 "h"] (utf8 "h")
      Body.invalid rfl).2.1 rfl
  refine ⟨rfl, rfl, err, hdec, hfetch, ?_⟩
  cases hdec
  rfl

end Awair
